import Mathlib

/-!
Verification of the uniform-domain-division (UDD) ray-tracing core:
grid construction (`rtUddCreate`), scene voxelization (`rtUddVoxelize`),
ray-entry location (`rtUddFindStartupVoxel`) and 3D-DDA grid traversal
(`rtUddTraverse`), shallowly embedded over exact rational arithmetic.

The embedding follows `voxelize.c` / `voxelize.h` statement by statement.
IEEE-754 single-precision values are modelled as rationals; the C cast
`(int32_t)f` is modelled by truncation toward zero (`ctrunc`); `FLT_MAX`
is the exact rational value of the largest finite single-precision float.
Helpers that the core calls but whose definitions live outside the given
sources (`vectormath.h`, `common.h`, the `isint` intersection callback,
`pow` from libm, `malloc`) are modelled from the spec's description of
them and are marked as such in their doc comments.
-/

/-- Ceiling of a rational as a computable function (`ceil` of libm in
`rtUddCreate`); proved equal to `⌈q⌉` in `rtCeil_eq`. -/
def rtCeil (q : ℚ) : ℤ := -(Rat.floor (-q))

/-- Truncation toward zero of a rational, the semantics of the C cast from
`float` to `int32_t` used throughout the voxel-index computations. -/
def ctrunc (q : ℚ) : ℤ :=
  if q < 0 then rtCeil q else Rat.floor q

theorem ratFloor_eq (q : ℚ) : Rat.floor q = ⌊q⌋ :=
  (Rat.floor_def' q).trans Rat.floor_def.symm

theorem rtCeil_floor (q : ℚ) : rtCeil q = -⌊-q⌋ := by
  rw [rtCeil, ratFloor_eq]

theorem rtCeil_eq (q : ℚ) : rtCeil q = ⌈q⌉ := by
  rw [rtCeil, ratFloor_eq, Int.floor_neg, neg_neg]

theorem ctrunc_eq (q : ℚ) : ctrunc q = if q < 0 then ⌈q⌉ else ⌊q⌋ := by
  rw [ctrunc]
  split
  · exact rtCeil_eq q
  · exact ratFloor_eq q

theorem ctrunc_floor (q : ℚ) : ctrunc q = if q < 0 then -⌊-q⌋ else ⌊q⌋ := by
  rw [ctrunc]
  split
  · exact rtCeil_floor q
  · exact ratFloor_eq q

/-- Exact rational value of `FLT_MAX`, the largest finite IEEE-754
single-precision value, `(2^24 - 1) * 2^104`. -/
def FLT_MAX : ℚ := 340282346638528859811704183484516925440

/-- Modelled from the spec: `RT_Vertex4f` is a 3D point/vector of
single-precision floats (the fourth component is padding never read by the
core), defined in `vectormath.h` which is not among the given sources. -/
structure RT_Vertex4f where
  x : ℚ
  y : ℚ
  z : ℚ
deriving DecidableEq, Repr

/-- Modelled from the spec: 3-component dot product from `vectormath.h`
(spec section 4.1, "Exposed operations: dot, ..."). -/
def rtVectorDotp (a b : RT_Vertex4f) : ℚ :=
  a.x * b.x + a.y * b.y + a.z * b.z

/-- Modelled from the spec: cross product from `vectormath.h`
(spec section 4.1). -/
def rtVectorCrossp (a b : RT_Vertex4f) : RT_Vertex4f :=
  ⟨a.y * b.z - a.z * b.y, a.z * b.x - a.x * b.z, a.x * b.y - a.y * b.x⟩

/-- Componentwise difference of two vectors. -/
def rtVectorSub (a b : RT_Vertex4f) : RT_Vertex4f :=
  ⟨a.x - b.x, a.y - b.y, a.z - b.z⟩

/-- Modelled from the spec: ray-point evaluator `p(t) = o + t*r` from
`vectormath.h` (spec section 4.1, `ray_point`). -/
def rtVectorRaypoint (o r : RT_Vertex4f) (t : ℚ) : RT_Vertex4f :=
  ⟨o.x + t * r.x, o.y + t * r.y, o.z + t * r.z⟩

/-- Modelled from the spec: absolute value (`rtAbs` of `common.h`). -/
def rtAbs (q : ℚ) : ℚ := |q|

/-- Modelled from the spec: the three-argument `MIN` macro of `common.h`. -/
def rtMIN (a b c : ℚ) : ℚ := min a (min b c)

/-- Modelled from the spec: the three-argument `MIN` macro of `common.h`,
at `int32_t` operands (vertex voxel indices in `rtUddVoxelize`). -/
def rtMINi (a b c : ℤ) : ℤ := min a (min b c)

/-- Modelled from the spec: the three-argument `MAX` macro of `common.h`,
at `int32_t` operands. -/
def rtMAXi (a b c : ℤ) : ℤ := max a (max b c)

/-- Modelled from the spec: `RT_Triangle` (scene preprocessor output):
three vertices `i, j, k`, the unit plane normal `n` and plane offset `d`
with `n·v + d = 0` for each vertex `v`. The field `tid` models C pointer
identity: distinct slots of the scene's triangle array carry distinct
`tid`s, and the traverser's `*t != current` pointer comparison is the
comparison of `tid`s. -/
structure RT_Triangle where
  tid : ℕ
  i : RT_Vertex4f
  j : RT_Vertex4f
  k : RT_Vertex4f
  n : RT_Vertex4f
  d : ℚ
deriving DecidableEq, Repr

/-- Modelled from the spec: the part of `RT_Scene` the core reads — the
triangle array `t` (its length is the C field `nt`) and the mutable domain
bounds `dmin`, `dmax`. -/
structure RT_Scene where
  t : List RT_Triangle
  dmin : RT_Vertex4f
  dmax : RT_Vertex4f
deriving DecidableEq, Repr

/-- Single voxel, after `struct _RT_Voxel`: `nt` counts stored triangles,
`p` counts free slots left in the allocated buffer, `t` is the stored
triangle list (`none` models the NULL unallocated buffer; `some l` models
a buffer whose first `nt` entries are `l`). -/
structure RT_Voxel where
  nt : ℕ
  p : ℕ
  t : Option (List RT_Triangle)
deriving DecidableEq, Repr

/-- Uniform-domain-division grid, after `struct _RT_Udd`: per-axis voxel
size `s`, grid resolution `nv0, nv1, nv2` and the linearized voxel array
`v`. -/
structure RT_Udd where
  s : RT_Vertex4f
  nv0 : ℤ
  nv1 : ℤ
  nv2 : ℤ
  v : List RT_Voxel
deriving DecidableEq, Repr

/-- Mapping from 3D voxel coordinates to the 1D array offset,
after `rtVoxelArrayOffset`: `(i*nv[1] + j)*nv[2] + k`. -/
def rtVoxelArrayOffset (udd : RT_Udd) (i j k : ℤ) : ℤ :=
  (i * udd.nv1 + j) * udd.nv2 + k

/-- Voxel indices of a vertex, after `rtVertexGetVoxel`: each index is the
C float-to-int truncation of `(v[a] - dmin[a]) / s[a]`; the function
returns the indices exactly when all three land in `[0, nv[a])` (C result
1), and `none` otherwise (C result 0). -/
def rtVertexGetVoxel (scene : RT_Scene) (udd : RT_Udd) (v : RT_Vertex4f) :
    Option (ℤ × ℤ × ℤ) :=
  let i := ctrunc ((v.x - scene.dmin.x) / udd.s.x)
  let j := ctrunc ((v.y - scene.dmin.y) / udd.s.y)
  let k := ctrunc ((v.z - scene.dmin.z) / udd.s.z)
  if i < 0 ∨ udd.nv0 ≤ i then none
  else if j < 0 ∨ udd.nv1 ≤ j then none
  else if k < 0 ∨ udd.nv2 ≤ k then none
  else some (i, j, k)

/-- Appending a triangle to a voxel, after `rtVoxelAddTriangle`. Allocation
(`malloc`) is external nondeterminism, modelled by the `allocOk` argument:
it tells whether the at most one allocation the call can attempt succeeds.
On the unallocated (`t = NULL`) branch the code allocates `bufsize` slots
and sets `p = bufsize`; on the full (`p = 0`) branch it reallocates to
`nt + bufsize` slots, copying the `nt` stored pointers in order, and sets
`p = bufsize`; a failed allocation returns 0 (here `false`) with the voxel
untouched. Then the triangle is stored at position `nt`, `nt` is
incremented and `p` decremented, and the call returns 1 (`true`). -/
def rtVoxelAddTriangle (allocOk : Bool) (v : RT_Voxel) (tri : RT_Triangle)
    (bufsize : ℕ) : Bool × RT_Voxel :=
  match v.t with
  | none =>
    if allocOk then (true, ⟨v.nt + 1, bufsize - 1, some [tri]⟩) else (false, v)
  | some l =>
    if v.p = 0 then
      if allocOk then (true, ⟨v.nt + 1, bufsize - 1, some (l ++ [tri])⟩)
      else (false, v)
    else (true, ⟨v.nt + 1, v.p - 1, some (l ++ [tri])⟩)

/-- Grid construction, after `rtUddCreate`. The scene bounds are inflated
by `0.001` per side, the extent `ds` gets a further `0.001` margin, the
per-axis resolution is `ceil(ds[a] * v)` and the voxel size `ds[a] / nv[a]`,
and the voxel array holds `nv[0]*nv[1]*nv[2]` zeroed voxels. The call
`pow(nt / (ds[0]*ds[1]*ds[2]), 0.33333f)` is a libm function outside the
given sources; its returned value (a nonnegative float) is passed in as
the argument `cbrtDensity`, so `v = cbrtDensity + 0.001`. The top-level
`malloc`s are modelled as succeeding (on failure the C function returns
NULL and no grid exists, which no claim is about). The mutated scene
(inflated bounds) is returned alongside the grid. -/
def rtUddCreate (scene : RT_Scene) (cbrtDensity : ℚ) : RT_Scene × RT_Udd :=
  let eps : ℚ := 1/1000
  let dmin : RT_Vertex4f :=
    ⟨scene.dmin.x - eps, scene.dmin.y - eps, scene.dmin.z - eps⟩
  let dmax : RT_Vertex4f :=
    ⟨scene.dmax.x + eps, scene.dmax.y + eps, scene.dmax.z + eps⟩
  let ds0 := dmax.x - dmin.x + eps
  let ds1 := dmax.y - dmin.y + eps
  let ds2 := dmax.z - dmin.z + eps
  let v := cbrtDensity + eps
  let nv0 := rtCeil (ds0 * v)
  let nv1 := rtCeil (ds1 * v)
  let nv2 := rtCeil (ds2 * v)
  let s : RT_Vertex4f := ⟨ds0 / nv0, ds1 / nv1, ds2 / nv2⟩
  (⟨scene.t, dmin, dmax⟩,
   ⟨s, nv0, nv1, nv2, List.replicate (nv0 * nv1 * nv2).toNat ⟨0, 0, none⟩⟩)

/-- Voxel read at a linear offset, `self->v + offset` in C. A negative or
too-large offset is undefined behavior in C; it is modelled by the zeroed
voxel (no claim exercises it: the traverser only reads in-bounds voxels). -/
def rtVoxelGet (udd : RT_Udd) (off : ℤ) : RT_Voxel :=
  if 0 ≤ off then udd.v.getD off.toNat ⟨0, 0, none⟩ else ⟨0, 0, none⟩

/-- Voxel write-back at a linear offset. An out-of-range offset is undefined
behavior in C, modelled as a no-op (no claim exercises it). -/
def rtUddSetVoxel (udd : RT_Udd) (off : ℤ) (vox : RT_Voxel) : RT_Udd :=
  if 0 ≤ off then
    ⟨udd.s, udd.nv0, udd.nv1, udd.nv2, udd.v.set off.toNat vox⟩
  else udd

/-- One `rtVoxelAddTriangle(self->v + rtVoxelArrayOffset(self,i,j,k), t,
BUFSIZE)` call of `rtUddVoxelize` (whose `BUFSIZE` is 10); the voxelizer
ignores the return value, and allocation success is modelled. -/
def rtUddAddTriangleAt (udd : RT_Udd) (i j k : ℤ) (tri : RT_Triangle) :
    RT_Udd :=
  let off := rtVoxelArrayOffset udd i j k
  rtUddSetVoxel udd off (rtVoxelAddTriangle true (rtVoxelGet udd off) tri 10).2

/-- The plane-sign test of `rtUddVoxelize`'s general path, transcribed
literally: the eight evaluation points are built from the voxel's plane
coordinates `x1, x2, y1, y2, z1, z2`, and the points `bfl` and `ufl` take
`x2` as their z-coordinate exactly as the source does (`{x1, y1, x2, 0}`).
The result is `true` (skip the voxel) when every nested product
`s1 * s2 > 0` test succeeds. -/
def rtVoxelizeCornerSkip (dmin s : RT_Vertex4f) (t : RT_Triangle)
    (i j k : ℤ) : Bool :=
  let x1 := dmin.x + i * s.x
  let x2 := x1 + s.x
  let y1 := dmin.y + j * s.y
  let y2 := y1 + s.y
  let z1 := dmin.z + k * s.z
  let z2 := z1 + s.z
  let bcl : RT_Vertex4f := ⟨x1, y1, z1⟩
  let bcr : RT_Vertex4f := ⟨x2, y1, z1⟩
  let bfl : RT_Vertex4f := ⟨x1, y1, x2⟩
  let bfr : RT_Vertex4f := ⟨x2, y1, z2⟩
  let ucl : RT_Vertex4f := ⟨x1, y2, z1⟩
  let ucr : RT_Vertex4f := ⟨x2, y2, z1⟩
  let ufl : RT_Vertex4f := ⟨x1, y2, x2⟩
  let ufr : RT_Vertex4f := ⟨x2, y2, z2⟩
  let s1 := rtVectorDotp t.n bcl + t.d
  if 0 < s1 * (rtVectorDotp t.n bcr + t.d) then
    if 0 < s1 * (rtVectorDotp t.n bfl + t.d) then
      if 0 < s1 * (rtVectorDotp t.n bfr + t.d) then
        if 0 < s1 * (rtVectorDotp t.n ucl + t.d) then
          if 0 < s1 * (rtVectorDotp t.n ucr + t.d) then
            if 0 < s1 * (rtVectorDotp t.n ufl + t.d) then
              if 0 < s1 * (rtVectorDotp t.n ufr + t.d) then true
              else false
            else false
          else false
        else false
      else false
    else false
  else false

/-- Integer range `[lo, hi]` inclusive, the index set of a C loop
`for (v = lo; v <= hi; v++)`. -/
def intRange (lo hi : ℤ) : List ℤ :=
  (List.range (hi + 1 - lo).toNat).map (fun n => lo + n)

/-- The candidate voxel box of a triangle in `rtUddVoxelize`: the
componentwise `MIN` and `MAX` (`(min, max)` here) over the truncated
voxel indices `iidx`, `jidx`, `kidx` of the triangle's three vertices. -/
def rtTriangleCellRange (udd : RT_Udd) (dmin : RT_Vertex4f)
    (tri : RT_Triangle) : (ℤ × ℤ × ℤ) × (ℤ × ℤ × ℤ) :=
  let i0 := ctrunc ((tri.i.x - dmin.x) / udd.s.x)
  let i1 := ctrunc ((tri.i.y - dmin.y) / udd.s.y)
  let i2 := ctrunc ((tri.i.z - dmin.z) / udd.s.z)
  let j0 := ctrunc ((tri.j.x - dmin.x) / udd.s.x)
  let j1 := ctrunc ((tri.j.y - dmin.y) / udd.s.y)
  let j2 := ctrunc ((tri.j.z - dmin.z) / udd.s.z)
  let k0 := ctrunc ((tri.k.x - dmin.x) / udd.s.x)
  let k1 := ctrunc ((tri.k.y - dmin.y) / udd.s.y)
  let k2 := ctrunc ((tri.k.z - dmin.z) / udd.s.z)
  ((rtMINi i0 j0 k0, rtMINi i1 j1 k1, rtMINi i2 j2 k2),
   (rtMAXi i0 j0 k0, rtMAXi i1 j1 k1, rtMAXi i2 j2 k2))

/-- The body of `rtUddVoxelize`'s general-path triple loop at one voxel:
skip it when the plane-sign test says so, else insert the triangle. -/
def rtUddVoxelizeCell (dmin : RT_Vertex4f) (tri : RT_Triangle)
    (udd : RT_Udd) (i j k : ℤ) : RT_Udd :=
  if rtVoxelizeCornerSkip dmin udd.s tri i j k then udd
  else rtUddAddTriangleAt udd i j k tri

/-- One iteration of `rtUddVoxelize`'s triangle loop: the candidate box
from the vertex voxel indices, the single-voxel fast path when the box is
one voxel, and otherwise the triple loop over the box inserting the
triangle into every voxel the plane-sign test does not skip. -/
def rtUddVoxelizeTriangle (udd : RT_Udd) (dmin : RT_Vertex4f)
    (tri : RT_Triangle) : RT_Udd :=
  match rtTriangleCellRange udd dmin tri with
  | ((min0, min1, min2), (max0, max1, max2)) =>
    if min0 = max0 ∧ min1 = max1 ∧ min2 = max2 then
      rtUddAddTriangleAt udd min0 min1 min2 tri
    else
      (intRange min0 max0).foldl (fun ua i =>
        (intRange min1 max1).foldl (fun ub j =>
          (intRange min2 max2).foldl (fun uc k =>
            rtUddVoxelizeCell dmin tri uc i j k) ub) ua) udd

/-- Scene voxelization, after `rtUddVoxelize`: the triangle array is
processed in order. (The `tmp` buffer the C function allocates is dead:
it is zeroed and never read, so it has no model.) -/
def rtUddVoxelize (udd : RT_Udd) (scene : RT_Scene) : RT_Udd :=
  scene.t.foldl (fun u tri => rtUddVoxelizeTriangle u scene.dmin tri) udd

/-- The positive plane-crossing parameters `(dmin[a] - o[a]) / r[a]`,
`(dmax[a] - o[a]) / r[a]` that `rtUddFindStartupVoxel`'s loop retains, in
the loop's processing order (axis 0 then 1 then 2, low plane then high
plane, axes with `r[a] = 0` skipped, only values `> 0` kept). -/
def rtCrossingCandidates (scene : RT_Scene) (o r : RT_Vertex4f) : List ℚ :=
  ((if r.x = 0 then [] else
      [(scene.dmin.x - o.x) / r.x, (scene.dmax.x - o.x) / r.x]) ++
   (if r.y = 0 then [] else
      [(scene.dmin.y - o.y) / r.y, (scene.dmax.y - o.y) / r.y]) ++
   (if r.z = 0 then [] else
      [(scene.dmin.z - o.z) / r.z, (scene.dmax.z - o.z) / r.z])).filter
    (fun d => 0 < d)

/-- The two-minimum update of `rtUddFindStartupVoxel`: a retained crossing
`d` displaces `dmin1` (pushing it into `dmin2`) when `d < dmin1`, else
displaces `dmin2` when `d < dmin2`. -/
def rtTwoMinUpdate (p : ℚ × ℚ) (d : ℚ) : ℚ × ℚ :=
  if d < p.1 then (d, p.1) else if d < p.2 then (p.1, d) else p

/-- Ray-entry locator, after `rtUddFindStartupVoxel`: if the origin is
already inside the domain its voxel is returned; otherwise the two
smallest retained plane crossings `dmin1 ≤ dmin2` (both starting at
`FLT_MAX`) are computed, and the ray points at `dmin1` then at `dmin2` are
tested; `none` models the C result 0 ("ray misses domain"). -/
def rtUddFindStartupVoxel (udd : RT_Udd) (scene : RT_Scene)
    (o r : RT_Vertex4f) : Option (ℤ × ℤ × ℤ) :=
  match rtVertexGetVoxel scene udd o with
  | some ijk => some ijk
  | none =>
    let p := (rtCrossingCandidates scene o r).foldl rtTwoMinUpdate
      (FLT_MAX, FLT_MAX)
    match rtVertexGetVoxel scene udd (rtVectorRaypoint o r p.1) with
    | some ijk => some ijk
    | none => rtVertexGetVoxel scene udd (rtVectorRaypoint o r p.2)

/-- Modelled from the spec: the external per-triangle intersection
predicate `t->isint(t, o, r, &d, &dmin)` (a Möller–Trumbore-style kernel,
outside the given sources). Per the spec's contract it reports a hit
exactly when the ray intersects the triangle at some parametric distance
`d > 0` and yields that `d`; here it is the exact rational ray–triangle
intersection: barycentric coordinates `u, v` of the hit point must
satisfy `0 ≤ u`, `0 ≤ v`, `u + v ≤ 1`, the ray parameter must be
positive, and a ray parallel to the triangle's plane (zero determinant)
misses. -/
def rtTriangleIsint (t : RT_Triangle) (o r : RT_Vertex4f) : Option ℚ :=
  let e1 := rtVectorSub t.j t.i
  let e2 := rtVectorSub t.k t.i
  let pv := rtVectorCrossp r e2
  let det := rtVectorDotp e1 pv
  if det = 0 then none
  else
    let tv := rtVectorSub o t.i
    let u := rtVectorDotp tv pv / det
    let qv := rtVectorCrossp tv e1
    let w := rtVectorDotp r qv / det
    let dist := rtVectorDotp e2 qv / det
    if 0 ≤ u ∧ 0 ≤ w ∧ u + w ≤ 1 ∧ 0 < dist then some dist else none

/-- Stepping axis of the traverser. -/
inductive RT_Axis where
  | x : RT_Axis
  | y : RT_Axis
  | z : RT_Axis
deriving DecidableEq, Repr

/-- Axis selection of `rtUddTraverse`'s stepping phase, transcribed from
the nested conditionals: `tx_n < ty_n` then `tx_n < tz_n` gives x else z;
otherwise `ty_n < tz_n` gives y else z. -/
def rtUddSelectAxis (txn tyn tzn : ℚ) : RT_Axis :=
  if txn < tyn then
    if txn < tzn then RT_Axis.x else RT_Axis.z
  else
    if tyn < tzn then RT_Axis.y else RT_Axis.z

/-- One step of `rtUddTraverse`'s "proceed to next voxel" phase: the next
crossings `t?_n = t? + dt?` are computed, the selected axis's index is
advanced by its fixed step and that axis's `t?` becomes `t?_n`. -/
def rtUddStep (di dj dk : ℤ) (i j k : ℤ) (tx ty tz dtx dty dtz : ℚ) :
    (ℤ × ℤ × ℤ) × (ℚ × ℚ × ℚ) :=
  let txn := tx + dtx
  let tyn := ty + dty
  let tzn := tz + dtz
  match rtUddSelectAxis txn tyn tzn with
  | RT_Axis.x => ((i + di, j, k), (txn, ty, tz))
  | RT_Axis.y => ((i, j + dj, k), (tx, tyn, tz))
  | RT_Axis.z => ((i, j, k + dk), (tx, ty, tzn))

/-- The traverser's `*t != current` pointer comparison: `cur` is the
`current` argument (`none` models a NULL `current`), compared by triangle
identity `tid`. -/
def rtIsCurrent (cur : Option ℕ) (t : RT_Triangle) : Bool :=
  match cur with
  | none => false
  | some cid => t.tid == cid

/-- The per-voxel intersection scan of `rtUddTraverse`: starting from
`dmin = MIN(tx+dtx, ty+dty, tz+dtz)` and `nearest = NULL`, each triangle
of the voxel's list other than `current` is intersected, and a hit with
`d < dmin` becomes the new `dmin` and `nearest`. -/
def rtVoxelScan (cur : Option ℕ) (o r : RT_Vertex4f)
    (ts : List RT_Triangle) (dmin0 : ℚ) : ℚ × Option RT_Triangle :=
  ts.foldl (fun acc t =>
    if rtIsCurrent cur t then acc
    else
      match rtTriangleIsint t o r with
      | some d => if d < acc.1 then (d, some t) else acc
      | none => acc) (dmin0, none)

/-- The unbounded `while(1)` loop of `rtUddTraverse`, driven by explicit
fuel: `none` means the fuel ran out (the termination theorem shows the
fuel `rtUddFuel` never does), `some none` models the C `return NULL`
("no hit"), `some (some (tri, ipoint))` a returned triangle with its
intersection point. Each iteration reads the voxel at `(i,j,k)`, scans
its triangle list when `nt > 0` and returns the nearest accepted hit,
else steps one axis and returns NULL as soon as an index leaves its
range. -/
def rtUddTraverseLoop (udd : RT_Udd) (cur : Option ℕ) (o r : RT_Vertex4f)
    (dtx dty dtz : ℚ) (di dj dk : ℤ) :
    ℕ → ℤ → ℤ → ℤ → ℚ → ℚ → ℚ →
    Option (Option (RT_Triangle × RT_Vertex4f))
  | 0, _, _, _, _, _, _ => none
  | fuel + 1, i, j, k, tx, ty, tz =>
    let voxel := rtVoxelGet udd (rtVoxelArrayOffset udd i j k)
    let dmin0 := rtMIN (tx + dtx) (ty + dty) (tz + dtz)
    let scan :=
      if 0 < voxel.nt then rtVoxelScan cur o r (voxel.t.getD []) dmin0
      else (dmin0, none)
    match scan.2 with
    | some tri => some (some (tri, rtVectorRaypoint o r scan.1))
    | none =>
      match rtUddStep di dj dk i j k tx ty tz dtx dty dtz with
      | ((i2, j2, k2), (tx2, ty2, tz2)) =>
        if i2 < 0 ∨ udd.nv0 ≤ i2 then some none
        else if j2 < 0 ∨ udd.nv1 ≤ j2 then some none
        else if k2 < 0 ∨ udd.nv2 ≤ k2 then some none
        else rtUddTraverseLoop udd cur o r dtx dty dtz di dj dk
          fuel i2 j2 k2 tx2 ty2 tz2

/-- A fuel bound for the traversal loop: each iteration advances exactly
one voxel index by one toward its exit, so `nv0 + nv1 + nv2 + 1`
iterations always suffice from an in-bounds entry voxel. -/
def rtUddFuel (udd : RT_Udd) : ℕ :=
  udd.nv0.toNat + udd.nv1.toNat + udd.nv2.toNat + 1

/-- Grid traversal, after `rtUddTraverse`, before erasing the fuel marker:
the entry voxel's plane parameters give `tx, dtx` (`FLT_MAX` and 0 for a
zero direction component), `ty, dty`, `tz, dtz`, the step directions are
`+1` for a positive direction component and `-1` otherwise, and the loop
runs from the entry indices. -/
def rtUddTraverseAux (udd : RT_Udd) (scene : RT_Scene) (cur : Option ℕ)
    (o r : RT_Vertex4f) (i j k : ℤ) :
    Option (Option (RT_Triangle × RT_Vertex4f)) :=
  let x1 := scene.dmin.x + i * udd.s.x
  let x2 := x1 + udd.s.x
  let y1 := scene.dmin.y + j * udd.s.y
  let y2 := y1 + udd.s.y
  let z1 := scene.dmin.z + k * udd.s.z
  let z2 := z1 + udd.s.z
  let dtx := if r.x = 0 then FLT_MAX else rtAbs ((x2 - o.x) / r.x - (x1 - o.x) / r.x)
  let tx := if r.x = 0 then 0 else
    if (x1 - o.x) / r.x < (x2 - o.x) / r.x then (x1 - o.x) / r.x
    else (x2 - o.x) / r.x
  let dty := if r.y = 0 then FLT_MAX else rtAbs ((y2 - o.y) / r.y - (y1 - o.y) / r.y)
  let ty := if r.y = 0 then 0 else
    if (y1 - o.y) / r.y < (y2 - o.y) / r.y then (y1 - o.y) / r.y
    else (y2 - o.y) / r.y
  let dtz := if r.z = 0 then FLT_MAX else rtAbs ((z2 - o.z) / r.z - (z1 - o.z) / r.z)
  let tz := if r.z = 0 then 0 else
    if (z1 - o.z) / r.z < (z2 - o.z) / r.z then (z1 - o.z) / r.z
    else (z2 - o.z) / r.z
  let di : ℤ := if 0 < r.x then 1 else -1
  let dj : ℤ := if 0 < r.y then 1 else -1
  let dk : ℤ := if 0 < r.z then 1 else -1
  rtUddTraverseLoop udd cur o r dtx dty dtz di dj dk
    (rtUddFuel udd) i j k tx ty tz

/-- Grid traversal, after `rtUddTraverse`: `some (tri, ipoint)` models the
C function returning triangle `tri` having stored the intersection point,
`none` models `return NULL`. -/
def rtUddTraverse (udd : RT_Udd) (scene : RT_Scene) (cur : Option ℕ)
    (o r : RT_Vertex4f) (i j k : ℤ) : Option (RT_Triangle × RT_Vertex4f) :=
  (rtUddTraverseAux udd scene cur o r i j k).getD none

/-- Signed plane evaluation `sigma(p) = n·p + d` of a triangle's
supporting plane, the quantity the spec's voxel-inclusion test is about. -/
def rtSigma (t : RT_Triangle) (p : RT_Vertex4f) : ℚ :=
  rtVectorDotp t.n p + t.d

/-- The eight corner points of the voxel box
`[dmin + (i,j,k)*s, dmin + (i+1,j+1,k+1)*s]`, following the spec's words
(spec section 4.4 step 3a); this is the claimed — correct — corner set,
to be compared with the source's `rtVoxelizeCornerSkip` points. -/
def rtVoxelCorners (dmin s : RT_Vertex4f) (i j k : ℤ) : List RT_Vertex4f :=
  let x1 := dmin.x + i * s.x
  let x2 := x1 + s.x
  let y1 := dmin.y + j * s.y
  let y2 := y1 + s.y
  let z1 := dmin.z + k * s.z
  let z2 := z1 + s.z
  [⟨x1, y1, z1⟩, ⟨x2, y1, z1⟩, ⟨x1, y1, z2⟩, ⟨x2, y1, z2⟩,
   ⟨x1, y2, z1⟩, ⟨x2, y2, z1⟩, ⟨x1, y2, z2⟩, ⟨x2, y2, z2⟩]

/-- The spec's skip condition (section 4.4 step 3c): all eight `sigma`
values at the true corners of the voxel share the same strict sign. -/
def rtCornersSameStrictSign (dmin s : RT_Vertex4f) (t : RT_Triangle)
    (i j k : ℤ) : Prop :=
  (∀ p ∈ rtVoxelCorners dmin s i j k, 0 < rtSigma t p) ∨
  (∀ p ∈ rtVoxelCorners dmin s i j k, rtSigma t p < 0)

instance (dmin s : RT_Vertex4f) (t : RT_Triangle) (i j k : ℤ) :
    Decidable (rtCornersSameStrictSign dmin s t i j k) := by
  unfold rtCornersSameStrictSign
  infer_instance

/-- Membership of a point in the closed axis-aligned box of voxel
`(i,j,k)`, `[dmin + (i,j,k)*s, dmin + (i+1,j+1,k+1)*s]`, the box claim C3
speaks about. -/
def rtInVoxelBox (dmin s : RT_Vertex4f) (i j k : ℤ) (p : RT_Vertex4f) :
    Prop :=
  dmin.x + i * s.x ≤ p.x ∧ p.x ≤ dmin.x + (i + 1) * s.x ∧
  dmin.y + j * s.y ≤ p.y ∧ p.y ≤ dmin.y + (j + 1) * s.y ∧
  dmin.z + k * s.z ≤ p.z ∧ p.z ≤ dmin.z + (k + 1) * s.z

instance (dmin s : RT_Vertex4f) (i j k : ℤ) (p : RT_Vertex4f) :
    Decidable (rtInVoxelBox dmin s i j k p) := by
  unfold rtInVoxelBox
  infer_instance

/-- Membership of a point in the voxel box of `(i,j,k)` enlarged,
per axis, by one voxel size on the low side and opened: the tightest box
the C truncation-toward-zero index computation guarantees (a coordinate
in `(dmin[a] - s[a], dmin[a])` also truncates to index 0). -/
def rtInVoxelBoxExt (dmin s : RT_Vertex4f) (i j k : ℤ) (p : RT_Vertex4f) :
    Prop :=
  dmin.x + (i - 1) * s.x < p.x ∧ p.x < dmin.x + (i + 1) * s.x ∧
  dmin.y + (j - 1) * s.y < p.y ∧ p.y < dmin.y + (j + 1) * s.y ∧
  dmin.z + (k - 1) * s.z < p.z ∧ p.z < dmin.z + (k + 1) * s.z

/-- Membership of a point in the closed inflated domain `[dmin, dmax]`. -/
def rtInDomain (dmin dmax p : RT_Vertex4f) : Prop :=
  dmin.x ≤ p.x ∧ p.x ≤ dmax.x ∧
  dmin.y ≤ p.y ∧ p.y ≤ dmax.y ∧
  dmin.z ≤ p.z ∧ p.z ≤ dmax.z

instance (dmin dmax p : RT_Vertex4f) : Decidable (rtInDomain dmin dmax p) := by
  unfold rtInDomain
  infer_instance

/-- Strict (interior) membership of a point in the inflated domain. -/
def rtInDomainStrict (dmin dmax p : RT_Vertex4f) : Prop :=
  dmin.x < p.x ∧ p.x < dmax.x ∧
  dmin.y < p.y ∧ p.y < dmax.y ∧
  dmin.z < p.z ∧ p.z < dmax.z

instance (dmin dmax p : RT_Vertex4f) :
    Decidable (rtInDomainStrict dmin dmax p) := by
  unfold rtInDomainStrict
  infer_instance

/-- In-bounds voxel indices of a grid, the loop invariant of the
traverser ("`(i, j, k)` is always a valid voxel in bounds"). -/
def rtUddInBounds (udd : RT_Udd) (i j k : ℤ) : Prop :=
  0 ≤ i ∧ i < udd.nv0 ∧ 0 ≤ j ∧ j < udd.nv1 ∧ 0 ≤ k ∧ k < udd.nv2

instance (udd : RT_Udd) (i j k : ℤ) : Decidable (rtUddInBounds udd i j k) := by
  unfold rtUddInBounds
  infer_instance

/-- The spec-side axis choice: among the axes attaining the minimal next
crossing, the one of fixed priority z before y before x. (The claim says
the priority is x before y before z; the source's conditionals give the
opposite priority, which this definition records for the amended claim.) -/
def rtSelectAxisSpecZYX (txn tyn tzn : ℚ) : RT_Axis :=
  if tzn ≤ txn ∧ tzn ≤ tyn then RT_Axis.z
  else if tyn ≤ txn ∧ tyn ≤ tzn then RT_Axis.y
  else RT_Axis.x

/-- Stored triangle list of a voxel (the first `nt` buffer entries; `[]`
for the unallocated buffer). -/
def RT_Voxel.stored (v : RT_Voxel) : List RT_Triangle :=
  v.t.getD []

/-- Well-formedness of a voxel as `rtVoxelAddTriangle` maintains it: an
unallocated buffer holds no triangles, and `nt` counts the stored
triangles. -/
def RT_Voxel.wf (v : RT_Voxel) : Prop :=
  (v.t = none → v.nt = 0) ∧ (∀ l, v.t = some l → l.length = v.nt)

/-! Concrete scene `scene2`: one triangle spanning the unit cube, used to
exercise the grid builder and the ray-entry locator. Its plane data is
exact: `n` is unit length and `n·v + d = 0` holds at all three
vertices. -/

/-- Triangle with vertices `(0,0,0)`, `(1,0,1)`, `(0,1,1/2)`, unit normal
`(-2/3, -1/3, 2/3)` and plane offset `0`. -/
def tri0 : RT_Triangle :=
  ⟨0, ⟨0, 0, 0⟩, ⟨1, 0, 1⟩, ⟨0, 1, 1/2⟩, ⟨-2/3, -1/3, 2/3⟩, 0⟩

/-- Scene of `tri0` with tight bounds `[0,1]^3`. -/
def scene2 : RT_Scene := ⟨[tri0], ⟨0, 0, 0⟩, ⟨1, 1, 1⟩⟩

/-- The inflated domain minimum `rtUddCreate` produces for a scene whose
bounds start at the origin: `(-0.001, -0.001, -0.001)`. -/
def dminInfl : RT_Vertex4f := ⟨-1/1000, -1/1000, -1/1000⟩

/-- The inflated scene `rtUddCreate` returns for `scene2`. -/
def scene2c : RT_Scene :=
  ⟨[tri0], dminInfl, ⟨1001/1000, 1001/1000, 1001/1000⟩⟩

/-- The grid `rtUddCreate` builds for `scene2` with the modelled
`pow(1/1.003^3, 0.33333f) = 0.997`: resolution 2 per axis, voxel size
`1.003/2` per axis, eight empty voxels. -/
def udd2 : RT_Udd :=
  ⟨⟨1003/2000, 1003/2000, 1003/2000⟩, 2, 2, 2,
   List.replicate 8 ⟨0, 0, none⟩⟩

theorem rtUddCreate_scene2 :
    rtUddCreate scene2 (997/1000) = (scene2c, udd2) := by
  norm_num [rtUddCreate, scene2, scene2c, udd2, rtCeil_floor, dminInfl]
  rfl

/-! Concrete scene `sceneT`: two triangles in a `[0,3] x [0,1] x [0,12]`
domain, exercising the voxelizer's general path (triangle `triA` spans
two voxels in x) and its fast path (`triB` sits in a single voxel), and
the traverser. Both triangles carry exact unit normals with
`n·v + d = 0` at every vertex. -/

/-- Triangle on the plane `3x - 4z + 20 = 0` (unit normal
`(3/5, 0, -4/5)`, offset `4`), with vertices `(1, 1/2, 23/4)`,
`(5/2, 0, 55/8)`, `(5/2, 1, 55/8)`. -/
def triA : RT_Triangle :=
  ⟨0, ⟨1, 1/2, 23/4⟩, ⟨5/2, 0, 55/8⟩, ⟨5/2, 1, 55/8⟩, ⟨3/5, 0, -4/5⟩, 4⟩

/-- Triangle in the plane `x = 11/4` (unit normal `(1,0,0)`, offset
`-11/4`), with vertices `(11/4, 0, 5)`, `(11/4, 1, 5)`,
`(11/4, 1/2, 7)`. -/
def triB : RT_Triangle :=
  ⟨1, ⟨11/4, 0, 5⟩, ⟨11/4, 1, 5⟩, ⟨11/4, 1/2, 7⟩, ⟨1, 0, 0⟩, -11/4⟩

/-- Scene of `triA` and `triB` with bounds `[0,3] x [0,1] x [0,12]`. -/
def sceneT : RT_Scene := ⟨[triA, triB], ⟨0, 0, 0⟩, ⟨3, 1, 12⟩⟩

/-- The inflated scene `rtUddCreate` returns for `sceneT`. -/
def sceneTc : RT_Scene :=
  ⟨[triA, triB], dminInfl, ⟨3001/1000, 1001/1000, 12001/1000⟩⟩

/-- The grid `rtUddCreate` builds for `sceneT` with the modelled
`pow(2/36.15, 0.33333f) = 0.381`: resolution `(2, 1, 5)`, voxel size
`(1.5015, 1.003, 2.4006)`, ten empty voxels. -/
def uddT0 : RT_Udd :=
  ⟨⟨3003/2000, 1003/1000, 12003/5000⟩, 2, 1, 5,
   [⟨0, 0, none⟩, ⟨0, 0, none⟩, ⟨0, 0, none⟩, ⟨0, 0, none⟩, ⟨0, 0, none⟩,
    ⟨0, 0, none⟩, ⟨0, 0, none⟩, ⟨0, 0, none⟩, ⟨0, 0, none⟩, ⟨0, 0, none⟩]⟩

/-- The voxelized grid for `sceneT`: `triA` is stored in voxel `(0,0,2)`
(offset 2) only — the plane-sign test with the source's corner typo skips
voxel `(1,0,2)` — and `triB` is stored in voxel `(1,0,2)` (offset 7) by
the fast path. -/
def uddT : RT_Udd :=
  ⟨⟨3003/2000, 1003/1000, 12003/5000⟩, 2, 1, 5,
   [⟨0, 0, none⟩, ⟨0, 0, none⟩, ⟨1, 9, some [triA]⟩, ⟨0, 0, none⟩,
    ⟨0, 0, none⟩, ⟨0, 0, none⟩, ⟨0, 0, none⟩, ⟨1, 9, some [triB]⟩,
    ⟨0, 0, none⟩, ⟨0, 0, none⟩]⟩

theorem rtUddCreate_sceneT :
    rtUddCreate sceneT (381/1000) = (sceneTc, uddT0) := by
  norm_num [rtUddCreate, sceneT, sceneTc, uddT0, rtCeil_floor, dminInfl]
  rfl

/-- The grid after voxelizing `triA` alone: `triA` stored in voxel
`(0,0,2)` (offset 2). -/
def uddT1 : RT_Udd :=
  ⟨⟨3003/2000, 1003/1000, 12003/5000⟩, 2, 1, 5,
   [⟨0, 0, none⟩, ⟨0, 0, none⟩, ⟨1, 9, some [triA]⟩, ⟨0, 0, none⟩,
    ⟨0, 0, none⟩, ⟨0, 0, none⟩, ⟨0, 0, none⟩, ⟨0, 0, none⟩,
    ⟨0, 0, none⟩, ⟨0, 0, none⟩]⟩

set_option maxRecDepth 8000 in
theorem rangeA : rtTriangleCellRange uddT0 dminInfl triA =
    ((0, 0, 2), (1, 0, 2)) := by
  with_unfolding_all decide

theorem cellA_W : rtUddVoxelizeCell dminInfl triA uddT0 0 0 2 = uddT1 := by
  norm_num [rtUddVoxelizeCell, rtVoxelizeCornerSkip, rtVectorDotp, triA,
    dminInfl, uddT0, uddT1, rtUddAddTriangleAt, rtVoxelArrayOffset,
    rtVoxelGet, rtUddSetVoxel, rtVoxelAddTriangle]
  with_unfolding_all rfl

theorem cellA_V : rtUddVoxelizeCell dminInfl triA uddT1 1 0 2 = uddT1 := by
  norm_num [rtUddVoxelizeCell, rtVoxelizeCornerSkip, rtVectorDotp, triA,
    dminInfl, uddT1]

theorem intRange01 : intRange 0 1 = [0, 1] := by with_unfolding_all decide

theorem intRange00 : intRange 0 0 = [0] := by with_unfolding_all decide

theorem intRange22 : intRange 2 2 = [2] := by with_unfolding_all decide

theorem voxelizeTriangleA :
    rtUddVoxelizeTriangle uddT0 dminInfl triA = uddT1 := by
  rw [rtUddVoxelizeTriangle, rangeA]
  norm_num [intRange01, intRange00, intRange22, cellA_W, cellA_V]

set_option maxRecDepth 8000 in
theorem rangeB : rtTriangleCellRange uddT1 dminInfl triB =
    ((1, 0, 2), (1, 0, 2)) := by
  with_unfolding_all decide

theorem addB : rtUddAddTriangleAt uddT1 1 0 2 triB = uddT := by
  with_unfolding_all rfl

theorem voxelizeTriangleB :
    rtUddVoxelizeTriangle uddT1 dminInfl triB = uddT := by
  rw [rtUddVoxelizeTriangle, rangeB]
  norm_num [addB]

theorem rtUddVoxelize_sceneT : rtUddVoxelize uddT0 sceneTc = uddT := by
  rw [rtUddVoxelize]
  simp only [sceneTc, List.foldl_cons, List.foldl_nil]
  rw [voxelizeTriangleA, voxelizeTriangleB]

/-- Ray origin inside voxel `(0,0,2)` of the `sceneT` grid. -/
def oT : RT_Vertex4f := ⟨1/2, 1/2, 13/2⟩

/-- Unit ray direction along positive x. -/
def rT : RT_Vertex4f := ⟨1, 0, 0⟩

set_option maxRecDepth 8000 in
theorem traverseT_hit :
    rtUddTraverseAux uddT sceneTc none oT rT 0 0 2 =
    some (some (triB, ⟨11/4, 1/2, 13/2⟩)) := by
  with_unfolding_all decide

set_option maxRecDepth 8000 in
theorem traverseT_skipA :
    rtUddTraverseAux uddT sceneTc (some 0) oT rT 0 0 2 =
    some (some (triB, ⟨11/4, 1/2, 13/2⟩)) := by
  with_unfolding_all decide

set_option maxRecDepth 8000 in
theorem isintA : rtTriangleIsint triA oT rT = some (3/2) := by
  with_unfolding_all decide

set_option maxRecDepth 8000 in
theorem isintB : rtTriangleIsint triB oT rT = some (9/4) := by
  with_unfolding_all decide

/-- Ray origin outside the `scene2` domain in all three axis slabs,
`dminInfl - (rC2.x, 2*rC2.y, 3*rC2.z)`. -/
def oC2 : RT_Vertex4f := ⟨-2011/11000, -12011/11000, -27011/11000⟩

/-- Unit ray direction `(2/11, 6/11, 9/11)`. -/
def rC2 : RT_Vertex4f := ⟨2/11, 6/11, 9/11⟩

set_option maxRecDepth 8000 in
theorem locMissC2 : rtUddFindStartupVoxel udd2 scene2c oC2 rC2 = none := by
  with_unfolding_all decide

set_option maxRecDepth 8000 in
theorem entryC2_inside :
    rtInDomainStrict scene2c.dmin scene2c.dmax
      (rtVectorRaypoint oC2 rC2 (33/10)) := by
  with_unfolding_all decide

/-- Ray origin just outside the `scene2` domain on the low x side. -/
def o3 : RT_Vertex4f := ⟨-1/4, 1/2, 1/2⟩

/-- Unit ray direction along negative x (pointing away from the
domain). -/
def r3 : RT_Vertex4f := ⟨-1, 0, 0⟩

set_option maxRecDepth 8000 in
theorem locKeepsO3 : rtUddFindStartupVoxel udd2 scene2c o3 r3 = some (0, 0, 0) := by
  with_unfolding_all decide

/-- Positional uniqueness in a mixed-radix digit: equal values with equal
in-range low digits have equal digits. -/
theorem rtMixedRadix {a a' b b' n : ℤ} (hb : 0 ≤ b) (hbn : b < n)
    (hb' : 0 ≤ b') (hbn' : b' < n) (h : a * n + b = a' * n + b') :
    a = a' ∧ b = b' := by
  have hn : 0 < n := lt_of_le_of_lt hb hbn
  have key : a = a' := by
    by_contra hne
    rcases lt_or_gt_of_ne hne with hlt | hgt
    · have h1 : a + 1 ≤ a' := hlt
      have h2 : (a + 1) * n ≤ a' * n :=
        mul_le_mul_of_nonneg_right h1 hn.le
      nlinarith
    · have h1 : a' + 1 ≤ a := hgt
      have h2 : (a' + 1) * n ≤ a * n :=
        mul_le_mul_of_nonneg_right h1 hn.le
      nlinarith
  refine ⟨key, ?_⟩
  subst key
  linarith

/-- C9: for all indices with `0 ≤ i < nv0`, `0 ≤ j < nv1`, `0 ≤ k < nv2`,
the linearization `rtVoxelArrayOffset udd i j k = (i*nv1 + j)*nv2 + k` is
nonnegative and below `nv0*nv1*nv2`, and the mapping `(i,j,k) ↦ offset`
is injective on that range. -/
theorem C9_offset_bounds_injective (udd : RT_Udd) (i j k i2 j2 k2 : ℤ)
    (hi0 : 0 ≤ i) (hi1 : i < udd.nv0) (hj0 : 0 ≤ j) (hj1 : j < udd.nv1)
    (hk0 : 0 ≤ k) (hk1 : k < udd.nv2)
    (hi0' : 0 ≤ i2) (hi1' : i2 < udd.nv0) (hj0' : 0 ≤ j2)
    (hj1' : j2 < udd.nv1) (hk0' : 0 ≤ k2) (hk1' : k2 < udd.nv2) :
    0 ≤ rtVoxelArrayOffset udd i j k ∧
    rtVoxelArrayOffset udd i j k < udd.nv0 * udd.nv1 * udd.nv2 ∧
    (rtVoxelArrayOffset udd i j k = rtVoxelArrayOffset udd i2 j2 k2 →
      i = i2 ∧ j = j2 ∧ k = k2) := by
  have hn1 : 0 < udd.nv1 := lt_of_le_of_lt hj0 hj1
  have hn2 : 0 < udd.nv2 := lt_of_le_of_lt hk0 hk1
  refine ⟨?_, ?_, ?_⟩
  · unfold rtVoxelArrayOffset
    have h1 : 0 ≤ i * udd.nv1 := mul_nonneg hi0 hn1.le
    have h2 : 0 ≤ (i * udd.nv1 + j) * udd.nv2 :=
      mul_nonneg (by linarith) hn2.le
    linarith
  · unfold rtVoxelArrayOffset
    have h1 : i * udd.nv1 + j ≤ udd.nv0 * udd.nv1 - 1 := by
      have : (i + 1) * udd.nv1 ≤ udd.nv0 * udd.nv1 :=
        mul_le_mul_of_nonneg_right (by linarith) hn1.le
      nlinarith
    have h2 : (i * udd.nv1 + j) * udd.nv2 ≤
        (udd.nv0 * udd.nv1 - 1) * udd.nv2 :=
      mul_le_mul_of_nonneg_right h1 hn2.le
    nlinarith
  · intro heq
    unfold rtVoxelArrayOffset at heq
    obtain ⟨hrow, hk⟩ := rtMixedRadix hk0 hk1 hk0' hk1' heq
    obtain ⟨hi, hj⟩ := rtMixedRadix hj0 hj1 hj0' hj1' hrow
    exact ⟨hi, hj, hk⟩

/-- Witness for C9 at the `scene2` grid and indices `(1,0,1)`,
`(1,1,0)`. -/
theorem C9_offset_witness :
    0 ≤ rtVoxelArrayOffset udd2 1 0 1 ∧
    rtVoxelArrayOffset udd2 1 0 1 < udd2.nv0 * udd2.nv1 * udd2.nv2 ∧
    (rtVoxelArrayOffset udd2 1 0 1 = rtVoxelArrayOffset udd2 1 1 0 →
      (1 : ℤ) = 1 ∧ (0 : ℤ) = 1 ∧ (1 : ℤ) = 0) :=
  C9_offset_bounds_injective udd2 1 0 1 1 1 0 (by decide) (by decide)
    (by decide) (by decide) (by decide) (by decide) (by decide) (by decide)
    (by decide) (by decide) (by decide) (by decide)

/-- C10: `rtVoxelAddTriangle` on a well-formed voxel either fails —
returning 0 exactly when the allocation it needed (unallocated buffer or
no free slot) did not succeed — leaving `nt`, `p` and the stored triangle
list exactly as they were, or succeeds, returning 1, incrementing `nt`
and appending the triangle at position `nt` after all previously stored
triangles, in order. -/
theorem C10_addTriangle_spec (ok : Bool) (v : RT_Voxel) (tri : RT_Triangle)
    (b : ℕ) (hwf : v.wf) :
    ((rtVoxelAddTriangle ok v tri b).1 = false →
      (rtVoxelAddTriangle ok v tri b).2 = v ∧ ok = false ∧
      (v.t = none ∨ v.p = 0)) ∧
    ((rtVoxelAddTriangle ok v tri b).1 = true →
      (rtVoxelAddTriangle ok v tri b).2.nt = v.nt + 1 ∧
      (rtVoxelAddTriangle ok v tri b).2.stored = v.stored ++ [tri] ∧
      v.stored.length = v.nt) := by
  obtain ⟨hwf1, hwf2⟩ := hwf
  rcases hv : v.t with _ | l
  · rcases hok : ok with _ | _
    · simp [rtVoxelAddTriangle, hv, hok]
    · simp [rtVoxelAddTriangle, hv, hok, RT_Voxel.stored, hwf1 hv]
  · rcases hp : v.p with _ | p
    · rcases hok : ok with _ | _
      · simp [rtVoxelAddTriangle, hv, hok, hp]
      · simp [rtVoxelAddTriangle, hv, hok, hp, RT_Voxel.stored, hwf2 l hv]
    · simp [rtVoxelAddTriangle, hv, hp, RT_Voxel.stored, hwf2 l hv]

/-- Witness for C10: a successful insert into a fresh voxel. -/
theorem C10_addTriangle_witness :
    RT_Voxel.wf ⟨0, 0, none⟩ ∧
    (((rtVoxelAddTriangle true ⟨0, 0, none⟩ tri0 10).1 = false →
      (rtVoxelAddTriangle true ⟨0, 0, none⟩ tri0 10).2 = ⟨0, 0, none⟩ ∧
      true = false ∧
      ((⟨0, 0, none⟩ : RT_Voxel).t = none ∨ (⟨0, 0, none⟩ : RT_Voxel).p = 0)) ∧
    ((rtVoxelAddTriangle true ⟨0, 0, none⟩ tri0 10).1 = true →
      (rtVoxelAddTriangle true ⟨0, 0, none⟩ tri0 10).2.nt =
        (⟨0, 0, none⟩ : RT_Voxel).nt + 1 ∧
      (rtVoxelAddTriangle true ⟨0, 0, none⟩ tri0 10).2.stored =
        (⟨0, 0, none⟩ : RT_Voxel).stored ++ [tri0] ∧
      (⟨0, 0, none⟩ : RT_Voxel).stored.length =
        (⟨0, 0, none⟩ : RT_Voxel).nt)) :=
  have hwf : RT_Voxel.wf ⟨0, 0, none⟩ :=
    ⟨fun _ => rfl, fun l h => by simp at h⟩
  ⟨hwf, C10_addTriangle_spec true ⟨0, 0, none⟩ tri0 10 hwf⟩

/-- The source's axis selection equals the spec-side z-before-y-before-x
tie-breaking selection. -/
theorem rtSelectAxis_eq_spec (a b c : ℚ) :
    rtUddSelectAxis a b c = rtSelectAxisSpecZYX a b c := by
  unfold rtUddSelectAxis rtSelectAxisSpecZYX
  rcases le_or_lt b a with hba | hab
  · rcases le_or_lt c b with hcb | hbc
    · rw [if_neg (by linarith), if_neg (by linarith),
        if_pos ⟨by linarith, hcb⟩]
    · rw [if_neg (by linarith), if_pos hbc,
        if_neg (by rintro ⟨h1, h2⟩; linarith),
        if_pos ⟨hba, by linarith⟩]
  · rcases le_or_lt c a with hca | hac
    · rw [if_pos hab, if_neg (by linarith),
        if_pos ⟨hca, by linarith⟩]
    · rw [if_pos hab, if_pos (by linarith),
        if_neg (by rintro ⟨h1, h2⟩; linarith),
        if_neg (by rintro ⟨h1, h2⟩; linarith)]

/-- C6 (amended): the stepping phase advances the axis the spec-side
z-before-y-before-x tie-breaking selection picks — ties between equal
minimal next crossings go to z over y and to y over x, the opposite of
the claimed x-before-y-before-z priority — and the selected axis always
attains the minimal next crossing. -/
theorem C6_step_priority_zyx (di dj dk i j k : ℤ)
    (tx ty tz dtx dty dtz : ℚ) :
    (rtUddStep di dj dk i j k tx ty tz dtx dty dtz =
      match rtSelectAxisSpecZYX (tx + dtx) (ty + dty) (tz + dtz) with
      | RT_Axis.x => ((i + di, j, k), (tx + dtx, ty, tz))
      | RT_Axis.y => ((i, j + dj, k), (tx, ty + dty, tz))
      | RT_Axis.z => ((i, j, k + dk), (tx, ty, tz + dtz))) ∧
    (rtSelectAxisSpecZYX (tx + dtx) (ty + dty) (tz + dtz) = RT_Axis.x →
      tx + dtx = rtMIN (tx + dtx) (ty + dty) (tz + dtz)) ∧
    (rtSelectAxisSpecZYX (tx + dtx) (ty + dty) (tz + dtz) = RT_Axis.y →
      ty + dty = rtMIN (tx + dtx) (ty + dty) (tz + dtz)) ∧
    (rtSelectAxisSpecZYX (tx + dtx) (ty + dty) (tz + dtz) = RT_Axis.z →
      tz + dtz = rtMIN (tx + dtx) (ty + dty) (tz + dtz)) := by
  constructor
  · simp only [rtUddStep]
    rw [rtSelectAxis_eq_spec]
  · unfold rtSelectAxisSpecZYX rtMIN
    refine ⟨?_, ?_, ?_⟩ <;> intro hsel
    · by_cases h1 : tz + dtz ≤ tx + dtx ∧ tz + dtz ≤ ty + dty
      · rw [if_pos h1] at hsel
        exact absurd hsel (by simp)
      · rw [if_neg h1] at hsel
        by_cases h2 : ty + dty ≤ tx + dtx ∧ ty + dty ≤ tz + dtz
        · rw [if_pos h2] at hsel
          exact absurd hsel (by simp)
        · push_neg at h1 h2
          have hab : tx + dtx < ty + dty := by
            by_contra hba
            push_neg at hba
            have hcb := h2 hba
            have hbc := h1 (by linarith)
            linarith
          have hac : tx + dtx < tz + dtz := by
            by_contra hca
            push_neg at hca
            have hbc := h1 hca
            have hcb := h2 (by linarith)
            linarith
          exact (min_eq_left (le_min hab.le hac.le)).symm
    · by_cases h1 : tz + dtz ≤ tx + dtx ∧ tz + dtz ≤ ty + dty
      · rw [if_pos h1] at hsel
        exact absurd hsel (by simp)
      · rw [if_neg h1] at hsel
        by_cases h2 : ty + dty ≤ tx + dtx ∧ ty + dty ≤ tz + dtz
        · obtain ⟨hba, hbc⟩ := h2
          rw [min_eq_left hbc, min_eq_right hba]
        · rw [if_neg h2] at hsel
          exact absurd hsel (by simp)
    · by_cases h1 : tz + dtz ≤ tx + dtx ∧ tz + dtz ≤ ty + dty
      · obtain ⟨hca, hcb⟩ := h1
        rw [min_eq_right hcb, min_eq_right hca]
      · rw [if_neg h1] at hsel
        by_cases h2 : ty + dty ≤ tx + dtx ∧ ty + dty ≤ tz + dtz
        · rw [if_pos h2] at hsel
          exact absurd hsel (by simp)
        · rw [if_neg h2] at hsel
          exact absurd hsel (by simp)

/-- Counterexample to C6 as stated: with the x and y next crossings tied
at the minimum (`tx+dtx = ty+dty = 2 < tz+dtz = 10`), the y index is
stepped, not the x index. -/
theorem C6_tie_steps_y :
    rtUddStep 1 1 1 0 0 0 1 0 0 1 2 10 = ((0, 1, 0), (1, 2, 0)) ∧
    (rtUddStep 1 1 1 0 0 0 1 0 0 1 2 10).1 ≠ (1, 0, 0) := by
  with_unfolding_all decide

set_option maxRecDepth 8000 in
theorem cornerSkipA_V :
    rtVoxelizeCornerSkip dminInfl uddT0.s triA 1 0 2 = true := by
  with_unfolding_all decide

set_option maxRecDepth 8000 in
theorem cornersMixedA_V :
    ¬ rtCornersSameStrictSign dminInfl uddT0.s triA 1 0 2 := by
  with_unfolding_all decide

/-- C4, the divergence at the failing input: on the general path for
triangle `triA`, voxel `(1,0,2)` lies in the candidate box
`[(0,0,2), (1,0,2)]`, the true eight corners of its box do NOT share a
strict sign (the triangle's plane crosses the voxel), yet the source's
corner test — whose `bfl`/`ufl` points carry the `x2` typo in place of
`z2` — skips the voxel, so the voxelized grid's voxel `(1,0,2)` does not
hold `triA`. -/
theorem C4_corner_typo_divergence :
    rtUddCreate sceneT (381/1000) = (sceneTc, uddT0) ∧
    rtUddVoxelize uddT0 sceneTc = uddT ∧
    rtTriangleCellRange uddT0 dminInfl triA = ((0, 0, 2), (1, 0, 2)) ∧
    rtVoxelizeCornerSkip dminInfl uddT0.s triA 1 0 2 = true ∧
    ¬ rtCornersSameStrictSign dminInfl uddT0.s triA 1 0 2 ∧
    triA ∉ (rtVoxelGet uddT (rtVoxelArrayOffset uddT 1 0 2)).stored :=
  ⟨rtUddCreate_sceneT, rtUddVoxelize_sceneT, rangeA, cornerSkipA_V,
   cornersMixedA_V, by with_unfolding_all decide⟩

/-- C1, the divergence at the failing input: on the voxelized `sceneT`
grid the traverser launched from entry voxel `(0,0,2)` with no `current`
triangle returns `triB` at parametric distance `9/4`, although `triA`
(absent from voxel `(1,0,2)`'s list because of the corner-test typo)
intersects the same ray at the strictly smaller distance `3/2`: the
returned hit is not the globally nearest hit. -/
theorem C1_not_nearest_hit :
    rtUddCreate sceneT (381/1000) = (sceneTc, uddT0) ∧
    rtUddVoxelize uddT0 sceneTc = uddT ∧
    rtUddTraverse uddT sceneTc none oT rT 0 0 2 =
      some (triB, ⟨11/4, 1/2, 13/2⟩) ∧
    rtTriangleIsint triA oT rT = some (3/2) ∧
    rtTriangleIsint triB oT rT = some (9/4) ∧
    (3/2 : ℚ) < 9/4 ∧ triA ≠ triB ∧ triA ∈ sceneTc.t :=
  ⟨rtUddCreate_sceneT, rtUddVoxelize_sceneT,
   by rw [rtUddTraverse, traverseT_hit]; rfl,
   isintA, isintB, by norm_num, by with_unfolding_all decide,
   by with_unfolding_all decide⟩

/-- No triangle equal to `current` ever becomes the scan's `nearest`:
the fold only stores triangles that pass the `*t != current` test. -/
theorem rtVoxelScan_ne_current (cid : ℕ) (o r : RT_Vertex4f)
    (ts : List RT_Triangle) :
    ∀ acc : ℚ × Option RT_Triangle,
      (∀ t0, acc.2 = some t0 → t0.tid ≠ cid) →
      ∀ tri, (ts.foldl (fun acc t =>
        if rtIsCurrent (some cid) t then acc
        else
          match rtTriangleIsint t o r with
          | some d => if d < acc.1 then (d, some t) else acc
          | none => acc) acc).2 = some tri → tri.tid ≠ cid := by
  induction ts with
  | nil =>
    intro acc hacc tri h
    exact hacc tri h
  | cons hd tl ih =>
    intro acc hacc tri h
    rw [List.foldl_cons] at h
    refine ih _ ?_ tri h
    intro t0 ht0
    by_cases hcur : rtIsCurrent (some cid) hd
    · rw [if_pos hcur] at ht0
      exact hacc t0 ht0
    · rw [if_neg hcur] at ht0
      rcases hint : rtTriangleIsint hd o r with _ | d

      · rw [hint] at ht0
        exact hacc t0 ht0
      · rw [hint] at ht0
        dsimp only at ht0
        by_cases hd2 : d < acc.1
        · rw [if_pos hd2] at ht0
          have hhd : hd = t0 := by simpa using ht0
          subst hhd
          intro heq
          apply hcur
          unfold rtIsCurrent
          simp [heq]
        · rw [if_neg hd2] at ht0
          exact hacc t0 ht0

/-- The fueled traversal loop invoked with `current = cid` never yields a
triangle with identity `cid`. -/
theorem rtUddTraverseLoop_ne_current (udd : RT_Udd) (cid : ℕ)
    (o r : RT_Vertex4f) (dtx dty dtz : ℚ) (di dj dk : ℤ) :
    ∀ (fuel : ℕ) (i j k : ℤ) (tx ty tz : ℚ) (tri : RT_Triangle)
      (ip : RT_Vertex4f),
      rtUddTraverseLoop udd (some cid) o r dtx dty dtz di dj dk
        fuel i j k tx ty tz = some (some (tri, ip)) →
      tri.tid ≠ cid := by
  intro fuel
  induction fuel with
  | zero =>
    intro i j k tx ty tz tri ip h
    simp [rtUddTraverseLoop] at h
  | succ n ih =>
    intro i j k tx ty tz tri ip h
    rw [rtUddTraverseLoop] at h
    rcases hscan : (if 0 < (rtVoxelGet udd (rtVoxelArrayOffset udd i j k)).nt
        then rtVoxelScan (some cid) o r
          ((rtVoxelGet udd (rtVoxelArrayOffset udd i j k)).t.getD [])
          (rtMIN (tx + dtx) (ty + dty) (tz + dtz))
        else (rtMIN (tx + dtx) (ty + dty) (tz + dtz), none)).2 with _ | tri2
    · rw [hscan] at h
      dsimp only at h
      rcases hstep : rtUddStep di dj dk i j k tx ty tz dtx dty dtz with
        ⟨⟨i2, j2, k2⟩, ⟨tx2, ty2, tz2⟩⟩
      rw [hstep] at h
      dsimp only at h
      split_ifs at h with hb1 hb2 hb3
      · simp at h
      · simp at h
      · simp at h
      · exact ih i2 j2 k2 tx2 ty2 tz2 tri ip h
    · rw [hscan] at h
      dsimp only at h
      simp only [Option.some.injEq, Prod.mk.injEq] at h
      obtain ⟨htri, hip⟩ := h
      subst htri
      by_cases hnt : 0 < (rtVoxelGet udd (rtVoxelArrayOffset udd i j k)).nt
      · rw [if_pos hnt] at hscan
        exact rtVoxelScan_ne_current cid o r _ _ (by simp) _ hscan
      · rw [if_neg hnt] at hscan
        simp at hscan

/-- C7: a traversal invoked with `current = T` (the pointer identity
`T.tid`) never returns `T`: any returned triangle has a different
identity. -/
theorem C7_skip_self (udd : RT_Udd) (scene : RT_Scene) (cid : ℕ)
    (o r : RT_Vertex4f) (i j k : ℤ) (tri : RT_Triangle) (ip : RT_Vertex4f)
    (h : rtUddTraverse udd scene (some cid) o r i j k = some (tri, ip)) :
    tri.tid ≠ cid := by
  rw [rtUddTraverse] at h
  rcases haux : rtUddTraverseAux udd scene (some cid) o r i j k with _ | res
  · rw [haux] at h
    simp at h
  · rw [haux] at h
    simp only [Option.getD_some] at h
    subst h
    simp only [rtUddTraverseAux] at haux
    exact rtUddTraverseLoop_ne_current udd cid o r _ _ _ _ _ _
      (rtUddFuel udd) i j k _ _ _ tri ip haux

/-- Witness for C7: the `sceneT` traversal with `current = triA` returns
`triB`, whose identity differs from `triA`'s. -/
theorem C7_skip_self_witness :
    rtUddTraverse uddT sceneTc (some 0) oT rT 0 0 2 =
      some (triB, ⟨11/4, 1/2, 13/2⟩) ∧
    triB.tid ≠ 0 :=
  have h : rtUddTraverse uddT sceneTc (some 0) oT rT 0 0 2 =
      some (triB, ⟨11/4, 1/2, 13/2⟩) := by
    rw [rtUddTraverse, traverseT_skipA]
    rfl
  ⟨h, C7_skip_self uddT sceneTc 0 oT rT 0 0 2 triB ⟨11/4, 1/2, 13/2⟩ h⟩

/-- The C truncation brackets its argument within an open unit
interval on each side. -/
theorem ctrunc_bounds (q : ℚ) :
    (ctrunc q : ℚ) - 1 < q ∧ q < (ctrunc q : ℚ) + 1 := by
  rw [ctrunc_eq]
  split
  · constructor
    · have h := Int.ceil_lt_add_one q
      linarith
    · have h := Int.le_ceil q
      linarith
  · constructor
    · have h := Int.floor_le q
      linarith
    · have h := Int.lt_floor_add_one q
      linarith

/-- A vertex the index test accepts lies in the per-axis enlarged open
box of the returned voxel, provided the voxel sizes are positive. -/
theorem rtVertexGetVoxel_extBox (scene : RT_Scene) (udd : RT_Udd)
    (p : RT_Vertex4f) (i j k : ℤ)
    (hsx : 0 < udd.s.x) (hsy : 0 < udd.s.y) (hsz : 0 < udd.s.z)
    (h : rtVertexGetVoxel scene udd p = some (i, j, k)) :
    rtInVoxelBoxExt scene.dmin udd.s i j k p := by
  simp only [rtVertexGetVoxel] at h
  split_ifs at h with h1 h2 h3
  simp only [Option.some.injEq, Prod.mk.injEq] at h
  obtain ⟨hi, hj, hk⟩ := h
  have bx := ctrunc_bounds ((p.x - scene.dmin.x) / udd.s.x)
  have by' := ctrunc_bounds ((p.y - scene.dmin.y) / udd.s.y)
  have bz := ctrunc_bounds ((p.z - scene.dmin.z) / udd.s.z)
  rw [hi] at bx
  rw [hj] at by'
  rw [hk] at bz
  have ex1 : ((i : ℚ) - 1) * udd.s.x < p.x - scene.dmin.x := by
    have := (mul_lt_mul_of_pos_right bx.1 hsx)
    rwa [div_mul_cancel₀ _ (ne_of_gt hsx)] at this
  have ex2 : p.x - scene.dmin.x < ((i : ℚ) + 1) * udd.s.x := by
    have := (mul_lt_mul_of_pos_right bx.2 hsx)
    rwa [div_mul_cancel₀ _ (ne_of_gt hsx)] at this
  have ey1 : ((j : ℚ) - 1) * udd.s.y < p.y - scene.dmin.y := by
    have := (mul_lt_mul_of_pos_right by'.1 hsy)
    rwa [div_mul_cancel₀ _ (ne_of_gt hsy)] at this
  have ey2 : p.y - scene.dmin.y < ((j : ℚ) + 1) * udd.s.y := by
    have := (mul_lt_mul_of_pos_right by'.2 hsy)
    rwa [div_mul_cancel₀ _ (ne_of_gt hsy)] at this
  have ez1 : ((k : ℚ) - 1) * udd.s.z < p.z - scene.dmin.z := by
    have := (mul_lt_mul_of_pos_right bz.1 hsz)
    rwa [div_mul_cancel₀ _ (ne_of_gt hsz)] at this
  have ez2 : p.z - scene.dmin.z < ((k : ℚ) + 1) * udd.s.z := by
    have := (mul_lt_mul_of_pos_right bz.2 hsz)
    rwa [div_mul_cancel₀ _ (ne_of_gt hsz)] at this
  refine ⟨?_, ?_, ?_, ?_, ?_, ?_⟩ <;> push_cast <;> linarith

/-- Both running minima of the crossing fold stay positive when every
candidate is positive. -/
theorem rtTwoMin_pos (l : List ℚ) (hl : ∀ d ∈ l, 0 < d) :
    ∀ a b : ℚ, 0 < a → 0 < b →
      0 < (l.foldl rtTwoMinUpdate (a, b)).1 ∧
      0 < (l.foldl rtTwoMinUpdate (a, b)).2 := by
  induction l with
  | nil =>
    intro a b ha hb
    exact ⟨ha, hb⟩
  | cons hd tl ih =>
    intro a b ha hb
    have hhd : 0 < hd := hl hd (List.mem_cons_self hd tl)
    have htl : ∀ d ∈ tl, 0 < d := fun d hd2 => hl d (List.mem_cons_of_mem _ hd2)
    rw [List.foldl_cons]
    unfold rtTwoMinUpdate
    split_ifs with h1 h2
    · exact (ih htl) hd a hhd ha
    · exact (ih htl) a hd ha hhd
    · exact (ih htl) a b ha hb

/-- Every retained crossing candidate is positive (the `d > 0` test of
the source). -/
theorem rtCrossingCandidates_pos (scene : RT_Scene) (o r : RT_Vertex4f) :
    ∀ d ∈ rtCrossingCandidates scene o r, 0 < d := by
  intro d hd
  unfold rtCrossingCandidates at hd
  exact of_decide_eq_true (List.mem_filter.mp hd).2

/-- C3 (amended): whenever `rtUddFindStartupVoxel` returns indices
`(i,j,k)` on a grid with positive voxel sizes, some ray point `o + t*r`
with `t ≥ 0` lies in the voxel's box enlarged by one voxel size on the
low side of each axis (open bounds). The enlargement is forced by the C
float-to-int cast truncating toward zero: a coordinate within one voxel
size BELOW `dmin[a]` also truncates to index 0, so the strict claim —
that the voxel's own box `[dmin + (i,j,k)s, dmin + (i+1,j+1,k+1)s]`
contains a ray point — fails (see the counterexample). -/
theorem C3_locator_soundness_ext (udd : RT_Udd) (scene : RT_Scene)
    (o r : RT_Vertex4f) (i j k : ℤ)
    (hsx : 0 < udd.s.x) (hsy : 0 < udd.s.y) (hsz : 0 < udd.s.z)
    (h : rtUddFindStartupVoxel udd scene o r = some (i, j, k)) :
    ∃ t : ℚ, 0 ≤ t ∧
      rtInVoxelBoxExt scene.dmin udd.s i j k (rtVectorRaypoint o r t) := by
  unfold rtUddFindStartupVoxel at h
  rcases h0 : rtVertexGetVoxel scene udd o with _ | ijk
  · rw [h0] at h
    dsimp only at h
    have hpos := rtTwoMin_pos (rtCrossingCandidates scene o r)
      (rtCrossingCandidates_pos scene o r) FLT_MAX FLT_MAX
      (by norm_num [FLT_MAX]) (by norm_num [FLT_MAX])
    rcases h1 : rtVertexGetVoxel scene udd (rtVectorRaypoint o r
        ((rtCrossingCandidates scene o r).foldl rtTwoMinUpdate
          (FLT_MAX, FLT_MAX)).1) with _ | ijk1
    · rw [h1] at h
      dsimp only at h
      exact ⟨_, hpos.2.le, rtVertexGetVoxel_extBox scene udd _ i j k
        hsx hsy hsz h⟩
    · rw [h1] at h
      dsimp only at h
      rw [h] at h1
      exact ⟨_, hpos.1.le, rtVertexGetVoxel_extBox scene udd _ i j k
        hsx hsy hsz h1⟩
  · rw [h0] at h
    dsimp only at h
    rw [h] at h0
    refine ⟨0, le_refl 0, ?_⟩
    have ho : rtVectorRaypoint o r 0 = o := by
      unfold rtVectorRaypoint
      cases o
      simp
    rw [ho]
    exact rtVertexGetVoxel_extBox scene udd o i j k hsx hsy hsz h0

/-- Counterexample to C3 as stated: on the `scene2` grid the locator
returns voxel `(0,0,0)` for the ray starting at `o3 = (-1/4, 1/2, 1/2)`
(outside the domain: the truncation toward zero maps `-1/4 - dmin.x
= -0.249` over `s.x = 0.5015` to index 0) with direction `(-1,0,0)`
pointing away from the domain, yet no ray point with `t ≥ 0` lies in
voxel `(0,0,0)`'s box. -/
theorem C3_locator_unsound_at_o3 :
    rtUddCreate scene2 (997/1000) = (scene2c, udd2) ∧
    rtUddFindStartupVoxel udd2 scene2c o3 r3 = some (0, 0, 0) ∧
    ∀ t : ℚ, 0 ≤ t →
      ¬ rtInVoxelBox scene2c.dmin udd2.s 0 0 0 (rtVectorRaypoint o3 r3 t) := by
  refine ⟨rtUddCreate_scene2, locKeepsO3, ?_⟩
  intro t ht hbox
  have hx := hbox.1
  simp only [scene2c, dminInfl, udd2, o3, r3, rtVectorRaypoint] at hx
  norm_num at hx
  linarith

/-- Witness for the amended C3 at the `o3` run on the `scene2` grid. -/
theorem C3_locator_soundness_witness :
    (0 < udd2.s.x ∧ 0 < udd2.s.y ∧ 0 < udd2.s.z ∧
     rtUddFindStartupVoxel udd2 scene2c o3 r3 = some (0, 0, 0)) ∧
    ∃ t : ℚ, 0 ≤ t ∧
      rtInVoxelBoxExt scene2c.dmin udd2.s 0 0 0 (rtVectorRaypoint o3 r3 t) :=
  have hsx : 0 < udd2.s.x := by norm_num [udd2]
  have hsy : 0 < udd2.s.y := by norm_num [udd2]
  have hsz : 0 < udd2.s.z := by norm_num [udd2]
  ⟨⟨hsx, hsy, hsz, locKeepsO3⟩,
   C3_locator_soundness_ext udd2 scene2c o3 r3 0 0 0 hsx hsy hsz locKeepsO3⟩

/-- The first component of the crossing fold is the running minimum: the
two-minimum update tracks `min` in its first slot. -/
theorem rtTwoMin_fst (l : List ℚ) :
    ∀ a b : ℚ, a ≤ b →
      (l.foldl rtTwoMinUpdate (a, b)).1 = l.foldl min a := by
  induction l with
  | nil =>
    intro a b _
    rfl
  | cons hd tl ih =>
    intro a b hab
    rw [List.foldl_cons, List.foldl_cons]
    by_cases h1 : hd < a
    · rw [show rtTwoMinUpdate (a, b) hd = (hd, a) from by
        unfold rtTwoMinUpdate
        rw [if_pos h1]]
      rw [ih hd a (le_of_lt h1), min_eq_right (le_of_lt h1)]
    · by_cases h2 : hd < b
      · rw [show rtTwoMinUpdate (a, b) hd = (a, hd) from by
          unfold rtTwoMinUpdate
          rw [if_neg h1, if_pos h2]]
        push_neg at h1
        rw [ih a hd h1, min_eq_left h1]
      · rw [show rtTwoMinUpdate (a, b) hd = (a, b) from by
          unfold rtTwoMinUpdate
          rw [if_neg h1, if_neg h2]]
        push_neg at h1
        rw [ih a b hab, min_eq_left h1]

/-- A fold of `min` over a list whose elements are all at least the
accumulator leaves the accumulator unchanged. -/
theorem foldl_min_const (l : List ℚ) :
    ∀ a : ℚ, (∀ c ∈ l, a ≤ c) → l.foldl min a = a := by
  induction l with
  | nil =>
    intro a _
    rfl
  | cons hd tl ih =>
    intro a hge
    rw [List.foldl_cons, min_eq_left (hge hd (List.mem_cons_self hd tl))]
    exact ih a (fun c hc => hge c (List.mem_cons_of_mem _ hc))

/-- A fold of `min` lands on a listed lower bound of the list. -/
theorem foldl_min_eq_of_mem (l : List ℚ) :
    ∀ a t1 : ℚ, t1 ∈ l → (∀ c ∈ l, t1 ≤ c) → t1 ≤ a →
      l.foldl min a = t1 := by
  induction l with
  | nil =>
    intro a t1 hmem _ _
    exact absurd hmem (List.not_mem_nil t1)
  | cons hd tl ih =>
    intro a t1 hmem hlb hle
    rw [List.foldl_cons]
    rcases List.mem_cons.mp hmem with heq | htl
    · subst heq
      have hconst : tl.foldl min (min a t1) = min a t1 :=
        foldl_min_const tl _ (fun c hc =>
          le_trans (min_le_right a t1) (hlb c (List.mem_cons_of_mem _ hc)))
      rw [hconst, min_eq_right hle]
    · exact ih (min a hd) t1 htl
        (fun c hc => hlb c (List.mem_cons_of_mem _ hc))
        (le_min hle (hlb hd (List.mem_cons_self hd tl)))

/-- C2 (amended): for a ray whose origin fails the inside test, if the
smallest positive crossing parameter `t1` of the six domain planes (the
minimum of the retained candidates, all below `FLT_MAX`) yields a ray
point that passes the voxel-index test with indices `(i,j,k)`, then
`rtUddFindStartupVoxel` returns 1 with exactly those indices — the
voxel of the ray's entry point. The claim's stronger statement, that a
ray entering the domain is always located through one of the two
smallest positive crossings, fails when the origin is outside more than
two axis slabs and the entry lies at the third crossing (see the
counterexample). -/
theorem C2_locator_entry_at_first_crossing (udd : RT_Udd)
    (scene : RT_Scene) (o r : RT_Vertex4f) (i j k : ℤ) (t1 : ℚ)
    (h0 : rtVertexGetVoxel scene udd o = none)
    (hmem : t1 ∈ rtCrossingCandidates scene o r)
    (hmin : ∀ c ∈ rtCrossingCandidates scene o r, t1 ≤ c)
    (hub : t1 < FLT_MAX)
    (hpass : rtVertexGetVoxel scene udd (rtVectorRaypoint o r t1) =
      some (i, j, k)) :
    rtUddFindStartupVoxel udd scene o r = some (i, j, k) := by
  unfold rtUddFindStartupVoxel
  rw [h0]
  dsimp only
  have hfst : ((rtCrossingCandidates scene o r).foldl rtTwoMinUpdate
      (FLT_MAX, FLT_MAX)).1 = t1 := by
    rw [rtTwoMin_fst _ FLT_MAX FLT_MAX (le_refl _)]
    exact foldl_min_eq_of_mem _ FLT_MAX t1 hmem hmin hub.le
  rw [hfst, hpass]

/-- Counterexample to C2 as stated: on the `scene2` grid, the unit ray
from `oC2` (origin outside the domain in all three axis slabs) enters
the inflated domain — the ray point at `t = 3.3` is strictly inside —
but its entry lies at the third positive plane crossing, and the locator,
which only tests the two smallest crossings, reports a miss. -/
theorem C2_locator_misses_entering_ray :
    rtUddCreate scene2 (997/1000) = (scene2c, udd2) ∧
    rtUddFindStartupVoxel udd2 scene2c oC2 rC2 = none ∧
    oC2.y < scene2c.dmin.y ∧
    rtInDomainStrict scene2c.dmin scene2c.dmax
      (rtVectorRaypoint oC2 rC2 (33/10)) ∧
    rtVectorDotp rC2 rC2 = 1 :=
  ⟨rtUddCreate_scene2, locMissC2, by norm_num [oC2, scene2c, dminInfl],
   entryC2_inside, by norm_num [rC2, rtVectorDotp]⟩

set_option maxRecDepth 8000 in
theorem candsW_eval :
    rtCrossingCandidates scene2c ⟨1/2, 1/2, 2⟩ ⟨0, 0, -1⟩ =
      [2001/1000, 999/1000] := by
  with_unfolding_all decide

set_option maxRecDepth 8000 in
theorem locW_o_outside :
    rtVertexGetVoxel scene2c udd2 ⟨1/2, 1/2, 2⟩ = none := by
  with_unfolding_all decide

set_option maxRecDepth 8000 in
theorem locW_entry_pass :
    rtVertexGetVoxel scene2c udd2
      (rtVectorRaypoint ⟨1/2, 1/2, 2⟩ ⟨0, 0, -1⟩ (999/1000)) =
      some (0, 0, 1) := by
  with_unfolding_all decide

/-- Witness for the amended C2: a ray from above the `scene2` domain
along `-z` enters at its smallest positive crossing `t = 0.999` and the
locator returns that entry point's voxel `(0,0,1)`. -/
theorem C2_locator_entry_witness :
    (rtVertexGetVoxel scene2c udd2 ⟨1/2, 1/2, 2⟩ = none ∧
     (999/1000 : ℚ) ∈ rtCrossingCandidates scene2c ⟨1/2, 1/2, 2⟩ ⟨0, 0, -1⟩ ∧
     (∀ c ∈ rtCrossingCandidates scene2c ⟨1/2, 1/2, 2⟩ ⟨0, 0, -1⟩,
       (999/1000 : ℚ) ≤ c) ∧
     (999/1000 : ℚ) < FLT_MAX ∧
     rtVertexGetVoxel scene2c udd2
       (rtVectorRaypoint ⟨1/2, 1/2, 2⟩ ⟨0, 0, -1⟩ (999/1000)) =
       some (0, 0, 1)) ∧
    rtUddFindStartupVoxel udd2 scene2c ⟨1/2, 1/2, 2⟩ ⟨0, 0, -1⟩ =
      some (0, 0, 1) :=
  have hmem : (999/1000 : ℚ) ∈
      rtCrossingCandidates scene2c ⟨1/2, 1/2, 2⟩ ⟨0, 0, -1⟩ := by
    rw [candsW_eval]
    norm_num
  have hmin : ∀ c ∈ rtCrossingCandidates scene2c ⟨1/2, 1/2, 2⟩ ⟨0, 0, -1⟩,
      (999/1000 : ℚ) ≤ c := by
    rw [candsW_eval]
    intro c hc
    rcases List.mem_cons.mp hc with h | h
    · rw [h]; norm_num
    · rcases List.mem_cons.mp h with h2 | h2
      · rw [h2]
      · exact absurd h2 (List.not_mem_nil c)
  have hub : (999/1000 : ℚ) < FLT_MAX := by norm_num [FLT_MAX]
  ⟨⟨locW_o_outside, hmem, hmin, hub, locW_entry_pass⟩,
   C2_locator_entry_at_first_crossing udd2 scene2c ⟨1/2, 1/2, 2⟩
     ⟨0, 0, -1⟩ 0 0 1 (999/1000) locW_o_outside hmem hmin hub
     locW_entry_pass⟩

/-- Shape of a grid: voxel sizes, resolution and voxel-array length.
Voxelization only rewrites voxel contents, so it preserves this shape. -/
def rtSameShape (u1 u2 : RT_Udd) : Prop :=
  u1.s = u2.s ∧ u1.nv0 = u2.nv0 ∧ u1.nv1 = u2.nv1 ∧ u1.nv2 = u2.nv2 ∧
  u1.v.length = u2.v.length

theorem rtSameShape_refl (u : RT_Udd) : rtSameShape u u :=
  ⟨rfl, rfl, rfl, rfl, rfl⟩

theorem rtSameShape_trans {u1 u2 u3 : RT_Udd} (h1 : rtSameShape u1 u2)
    (h2 : rtSameShape u2 u3) : rtSameShape u1 u3 :=
  ⟨h1.1.trans h2.1, h1.2.1.trans h2.2.1, h1.2.2.1.trans h2.2.2.1,
   h1.2.2.2.1.trans h2.2.2.2.1, h1.2.2.2.2.trans h2.2.2.2.2⟩

theorem rtUddSetVoxel_shape (udd : RT_Udd) (off : ℤ) (vox : RT_Voxel) :
    rtSameShape (rtUddSetVoxel udd off vox) udd := by
  unfold rtUddSetVoxel
  split_ifs
  · exact ⟨rfl, rfl, rfl, rfl, List.length_set udd.v _ _⟩
  · exact rtSameShape_refl udd

theorem rtUddAddTriangleAt_shape (udd : RT_Udd) (i j k : ℤ)
    (tri : RT_Triangle) : rtSameShape (rtUddAddTriangleAt udd i j k tri) udd :=
  rtUddSetVoxel_shape udd _ _

theorem rtUddVoxelizeCell_shape (dmin : RT_Vertex4f) (tri : RT_Triangle)
    (udd : RT_Udd) (i j k : ℤ) :
    rtSameShape (rtUddVoxelizeCell dmin tri udd i j k) udd := by
  unfold rtUddVoxelizeCell
  split_ifs
  · exact rtSameShape_refl udd
  · exact rtUddAddTriangleAt_shape udd i j k tri

theorem foldl_shape {β : Type} (f : RT_Udd → β → RT_Udd)
    (hf : ∀ u x, rtSameShape (f u x) u) :
    ∀ (l : List β) (u : RT_Udd), rtSameShape (l.foldl f u) u := by
  intro l
  induction l with
  | nil =>
    intro u
    exact rtSameShape_refl u
  | cons hd tl ih =>
    intro u
    rw [List.foldl_cons]
    exact rtSameShape_trans (ih (f u hd)) (hf u hd)

theorem rtUddVoxelizeTriangle_shape (udd : RT_Udd) (dmin : RT_Vertex4f)
    (tri : RT_Triangle) :
    rtSameShape (rtUddVoxelizeTriangle udd dmin tri) udd := by
  unfold rtUddVoxelizeTriangle
  rcases hrange : rtTriangleCellRange udd dmin tri with
    ⟨⟨mn0, mn1, mn2⟩, ⟨mx0, mx1, mx2⟩⟩
  dsimp only
  split_ifs
  · exact rtUddAddTriangleAt_shape udd mn0 mn1 mn2 tri
  · exact foldl_shape _ (fun u x =>
      foldl_shape _ (fun u2 x2 =>
        foldl_shape _ (fun u3 x3 =>
          rtUddVoxelizeCell_shape dmin tri u3 x x2 x3) _ u2) _ u) _ udd

theorem rtUddVoxelize_shape (udd : RT_Udd) (scene : RT_Scene) :
    rtSameShape (rtUddVoxelize udd scene) udd :=
  foldl_shape _ (fun u tri => rtUddVoxelizeTriangle_shape u scene.dmin tri)
    scene.t udd

/-- C5 (amended): after `rtUddCreate` succeeds — with the libm
`pow(...)^(1/3)` value `c ≥ 0` and ordered input bounds — the grid has
`nv[a] ≥ 1`, voxel size `s[a] = (dmax[a] - dmin[a] + 0.001) / nv[a]` in
terms of the INFLATED bounds the call leaves in the scene (the claim's
`s[a] = (dmax[a] - dmin[a]) / nv[a]` misses the extra `0.001` extent
margin of `rtUddCreate`; see the counterexample), and the voxel array has
exactly `nv0*nv1*nv2` elements; voxelization preserves sizes, resolution
and array length. -/
theorem C5_grid_invariants (scene : RT_Scene) (c : ℚ) (hc : 0 ≤ c)
    (hx : scene.dmin.x ≤ scene.dmax.x) (hy : scene.dmin.y ≤ scene.dmax.y)
    (hz : scene.dmin.z ≤ scene.dmax.z) :
    (1 ≤ (rtUddCreate scene c).2.nv0 ∧ 1 ≤ (rtUddCreate scene c).2.nv1 ∧
     1 ≤ (rtUddCreate scene c).2.nv2) ∧
    ((rtUddCreate scene c).2.s.x =
      ((rtUddCreate scene c).1.dmax.x - (rtUddCreate scene c).1.dmin.x +
        1/1000) / ((rtUddCreate scene c).2.nv0 : ℚ) ∧
     (rtUddCreate scene c).2.s.y =
      ((rtUddCreate scene c).1.dmax.y - (rtUddCreate scene c).1.dmin.y +
        1/1000) / ((rtUddCreate scene c).2.nv1 : ℚ) ∧
     (rtUddCreate scene c).2.s.z =
      ((rtUddCreate scene c).1.dmax.z - (rtUddCreate scene c).1.dmin.z +
        1/1000) / ((rtUddCreate scene c).2.nv2 : ℚ)) ∧
    ((rtUddCreate scene c).2.v.length : ℤ) =
      (rtUddCreate scene c).2.nv0 * (rtUddCreate scene c).2.nv1 *
        (rtUddCreate scene c).2.nv2 ∧
    rtSameShape
      (rtUddVoxelize (rtUddCreate scene c).2 (rtUddCreate scene c).1)
      (rtUddCreate scene c).2 := by
  have hv : (0 : ℚ) < c + 1/1000 := by linarith
  have hds0 : (0 : ℚ) <
      scene.dmax.x + 1/1000 - (scene.dmin.x - 1/1000) + 1/1000 := by
    linarith
  have hds1 : (0 : ℚ) <
      scene.dmax.y + 1/1000 - (scene.dmin.y - 1/1000) + 1/1000 := by
    linarith
  have hds2 : (0 : ℚ) <
      scene.dmax.z + 1/1000 - (scene.dmin.z - 1/1000) + 1/1000 := by
    linarith
  have hnv0 : 0 < (rtUddCreate scene c).2.nv0 := by
    simp only [rtUddCreate, rtCeil_eq]
    exact Int.ceil_pos.mpr (mul_pos hds0 hv)
  have hnv1 : 0 < (rtUddCreate scene c).2.nv1 := by
    simp only [rtUddCreate, rtCeil_eq]
    exact Int.ceil_pos.mpr (mul_pos hds1 hv)
  have hnv2 : 0 < (rtUddCreate scene c).2.nv2 := by
    simp only [rtUddCreate, rtCeil_eq]
    exact Int.ceil_pos.mpr (mul_pos hds2 hv)
  refine ⟨⟨hnv0, hnv1, hnv2⟩, ⟨?_, ?_, ?_⟩, ?_, rtUddVoxelize_shape _ _⟩
  · simp only [rtUddCreate]
  · simp only [rtUddCreate]
  · simp only [rtUddCreate]
  · simp only [rtUddCreate] at hnv0 hnv1 hnv2 ⊢
    rw [List.length_replicate, Int.toNat_of_nonneg]
    positivity

/-- Counterexample to C5 as stated: on the built `scene2` grid the voxel
size is `1.003/2`, not `(dmax - dmin)/nv = 1.002/2`: the claimed
invariant `s[a] = (dmax[a] - dmin[a]) / nv[a]` fails because the extent
receives a further `0.001` margin. -/
theorem C5_voxel_size_margin :
    rtUddCreate scene2 (997/1000) = (scene2c, udd2) ∧
    udd2.s.x ≠ (scene2c.dmax.x - scene2c.dmin.x) / (udd2.nv0 : ℚ) ∧
    udd2.s.x = (scene2c.dmax.x - scene2c.dmin.x + 1/1000) /
      (udd2.nv0 : ℚ) :=
  ⟨rtUddCreate_scene2,
   by norm_num [udd2, scene2c, dminInfl],
   by norm_num [udd2, scene2c, dminInfl]⟩

/-- Witness for the amended C5 at `scene2`. -/
theorem C5_grid_invariants_witness :
    ((0 : ℚ) ≤ 997/1000 ∧ scene2.dmin.x ≤ scene2.dmax.x ∧
     scene2.dmin.y ≤ scene2.dmax.y ∧ scene2.dmin.z ≤ scene2.dmax.z) ∧
    ((1 ≤ (rtUddCreate scene2 (997/1000)).2.nv0 ∧
      1 ≤ (rtUddCreate scene2 (997/1000)).2.nv1 ∧
      1 ≤ (rtUddCreate scene2 (997/1000)).2.nv2) ∧
     ((rtUddCreate scene2 (997/1000)).2.s.x =
       ((rtUddCreate scene2 (997/1000)).1.dmax.x -
         (rtUddCreate scene2 (997/1000)).1.dmin.x + 1/1000) /
         ((rtUddCreate scene2 (997/1000)).2.nv0 : ℚ) ∧
      (rtUddCreate scene2 (997/1000)).2.s.y =
       ((rtUddCreate scene2 (997/1000)).1.dmax.y -
         (rtUddCreate scene2 (997/1000)).1.dmin.y + 1/1000) /
         ((rtUddCreate scene2 (997/1000)).2.nv1 : ℚ) ∧
      (rtUddCreate scene2 (997/1000)).2.s.z =
       ((rtUddCreate scene2 (997/1000)).1.dmax.z -
         (rtUddCreate scene2 (997/1000)).1.dmin.z + 1/1000) /
         ((rtUddCreate scene2 (997/1000)).2.nv2 : ℚ)) ∧
     ((rtUddCreate scene2 (997/1000)).2.v.length : ℤ) =
       (rtUddCreate scene2 (997/1000)).2.nv0 *
         (rtUddCreate scene2 (997/1000)).2.nv1 *
         (rtUddCreate scene2 (997/1000)).2.nv2 ∧
     rtSameShape
       (rtUddVoxelize (rtUddCreate scene2 (997/1000)).2
         (rtUddCreate scene2 (997/1000)).1)
       (rtUddCreate scene2 (997/1000)).2) :=
  ⟨⟨by norm_num, by norm_num [scene2], by norm_num [scene2],
    by norm_num [scene2]⟩,
   C5_grid_invariants scene2 (997/1000) (by norm_num)
     (by norm_num [scene2]) (by norm_num [scene2]) (by norm_num [scene2])⟩

/-- Remaining steps available to one axis of the DDA before its index
leaves `[0, n)` in its fixed direction: `n - idx` steps upward for a
positive step, `idx + 1` steps downward otherwise. -/
def axisBudget (n idx step : ℤ) : ℕ :=
  (if 0 < step then n - idx else idx + 1).toNat

/-- Total remaining steps of the traversal from voxel `(i,j,k)`. -/
def rtStepBudget (udd : RT_Udd) (di dj dk i j k : ℤ) : ℕ :=
  axisBudget udd.nv0 i di + axisBudget udd.nv1 j dj +
    axisBudget udd.nv2 k dk

theorem axisBudget_pos {n idx : ℤ} (step : ℤ) (h0 : 0 ≤ idx)
    (h1 : idx < n) : 1 ≤ axisBudget n idx step := by
  unfold axisBudget
  split_ifs <;> omega

theorem axisBudget_le {n idx : ℤ} (step : ℤ) (h0 : 0 ≤ idx)
    (h1 : idx < n) : axisBudget n idx step ≤ n.toNat := by
  unfold axisBudget
  split_ifs <;> omega

theorem axisBudget_step {n idx step : ℤ} (hs : step = 1 ∨ step = -1)
    (h0 : 0 ≤ idx) (h1 : idx < n) :
    axisBudget n (idx + step) step + 1 = axisBudget n idx step := by
  rcases hs with hs | hs <;> subst hs <;> unfold axisBudget <;>
    split_ifs <;> omega

/-- With enough fuel — the remaining step budget of the entry voxel —
the traversal loop never exhausts its fuel: every iteration either
returns a hit, returns NULL at the boundary, or advances exactly one
axis index one step along its fixed direction, shrinking the budget. -/
theorem rtUddTraverseLoop_total (udd : RT_Udd) (cur : Option ℕ)
    (o r : RT_Vertex4f) (dtx dty dtz : ℚ) (di dj dk : ℤ)
    (hdi : di = 1 ∨ di = -1) (hdj : dj = 1 ∨ dj = -1)
    (hdk : dk = 1 ∨ dk = -1) :
    ∀ (fuel : ℕ) (i j k : ℤ) (tx ty tz : ℚ),
      rtUddInBounds udd i j k →
      rtStepBudget udd di dj dk i j k ≤ fuel →
      rtUddTraverseLoop udd cur o r dtx dty dtz di dj dk
        fuel i j k tx ty tz ≠ none := by
  intro fuel
  induction fuel with
  | zero =>
    intro i j k tx ty tz hib hbud
    exfalso
    obtain ⟨hi0, hi1, hj0, hj1, hk0, hk1⟩ := hib
    have b1 := axisBudget_pos di hi0 hi1
    have b2 := axisBudget_pos dj hj0 hj1
    have b3 := axisBudget_pos dk hk0 hk1
    unfold rtStepBudget at hbud
    omega
  | succ n ih =>
    intro i j k tx ty tz hib hbud
    rw [rtUddTraverseLoop]
    rcases hscan : (if 0 < (rtVoxelGet udd (rtVoxelArrayOffset udd i j k)).nt
        then rtVoxelScan cur o r
          ((rtVoxelGet udd (rtVoxelArrayOffset udd i j k)).t.getD [])
          (rtMIN (tx + dtx) (ty + dty) (tz + dtz))
        else (rtMIN (tx + dtx) (ty + dty) (tz + dtz), none)).2 with _ | tri2
    · dsimp only
      rcases hstep : rtUddStep di dj dk i j k tx ty tz dtx dty dtz with
        ⟨⟨i2, j2, k2⟩, ⟨tx2, ty2, tz2⟩⟩
      dsimp only
      split_ifs with hb1 hb2 hb3
      · simp
      · simp
      · simp
      · push_neg at hb1 hb2 hb3
        refine ih i2 j2 k2 tx2 ty2 tz2
          ⟨hb1.1, hb1.2, hb2.1, hb2.2, hb3.1, hb3.2⟩ ?_
        obtain ⟨hi0, hi1, hj0, hj1, hk0, hk1⟩ := hib
        unfold rtUddStep at hstep
        dsimp only at hstep
        rcases hsel : rtUddSelectAxis (tx + dtx) (ty + dty) (tz + dtz) with
          _ | _ | _ <;> rw [hsel] at hstep <;> dsimp only at hstep <;>
          [skip; skip; skip] <;>
          simp only [Prod.mk.injEq] at hstep <;>
          obtain ⟨⟨e1, e2, e3⟩, _⟩ := hstep
        · subst e1 e2 e3
          have hstep1 := axisBudget_step hdi hi0 hi1
          unfold rtStepBudget at hbud ⊢
          omega
        · subst e1 e2 e3
          have hstep1 := axisBudget_step hdj hj0 hj1
          unfold rtStepBudget at hbud ⊢
          omega
        · subst e1 e2 e3
          have hstep1 := axisBudget_step hdk hk0 hk1
          unfold rtStepBudget at hbud ⊢
          omega
    · dsimp only
      simp

/-- C8: from an in-bounds entry voxel the traverser terminates — the
fueled loop run with fuel `nv0 + nv1 + nv2 + 1` produces a result (a hit
or NULL) without ever exhausting the fuel: each iteration either returns
or advances exactly one axis index monotonically in its fixed step
direction until an index leaves `[0, nv[axis])`. -/
theorem C8_traverse_terminates (udd : RT_Udd) (scene : RT_Scene)
    (cur : Option ℕ) (o r : RT_Vertex4f) (i j k : ℤ)
    (h : rtUddInBounds udd i j k) :
    ∃ res, rtUddTraverseAux udd scene cur o r i j k = some res := by
  obtain ⟨hi0, hi1, hj0, hj1, hk0, hk1⟩ := h
  simp only [rtUddTraverseAux]
  rw [← Option.ne_none_iff_exists']
  apply rtUddTraverseLoop_total
  · split_ifs <;> simp
  · split_ifs <;> simp
  · split_ifs <;> simp
  · exact ⟨hi0, hi1, hj0, hj1, hk0, hk1⟩
  · have a1 := axisBudget_le (n := udd.nv0)
      (if 0 < r.x then (1 : ℤ) else -1) hi0 hi1
    have a2 := axisBudget_le (n := udd.nv1)
      (if 0 < r.y then (1 : ℤ) else -1) hj0 hj1
    have a3 := axisBudget_le (n := udd.nv2)
      (if 0 < r.z then (1 : ℤ) else -1) hk0 hk1
    unfold rtStepBudget rtUddFuel
    omega

/-- Witness for C8: the traversal from voxel `(0,0,2)` of the voxelized
`sceneT` grid terminates. -/
theorem C8_traverse_terminates_witness :
    rtUddInBounds uddT 0 0 2 ∧
    ∃ res, rtUddTraverseAux uddT sceneTc none oT rT 0 0 2 = some res :=
  have hib : rtUddInBounds uddT 0 0 2 := by
    refine ⟨by norm_num, ?_, by norm_num, ?_, by norm_num, ?_⟩ <;>
      norm_num [uddT]
  ⟨hib, C8_traverse_terminates uddT sceneTc none oT rT 0 0 2 hib⟩
